import Mathlib

/-!
# NanoDate: a shallow embedding of the date engine

This file embeds the core of the NanoDate library (fast ISO parsing, the
calendar validity checker, the immutable arithmetic engine, the duration
decomposition, the format fast paths and the bounded caches) into Lean and
proves the specification claims about it.

Modelling conventions:

* A JavaScript `Date` is its primitive value: an epoch offset in
  milliseconds.  We model it as an unbounded `Int` (the host clips to
  ±8.64e15 and stores an IEEE double; every quantity the claims touch is an
  integer, and range clipping is outside the claims), with `Option Int`
  where an invalid date (`NaN`) is reachable.
* The host's local time zone is taken to be UTC, so local accessors
  (`getFullYear`, …) and local construction coincide with their UTC
  counterparts.  No claim in scope depends on a non-zero offset.
* `/` and `%` on `Int` in Lean are Euclidean; for the positive literal
  divisors used throughout they agree with the floor semantics of
  ECMAScript's `Day`, `TimeWithinDay` and `modulo` operations.
-/

namespace NanoDate

set_option maxRecDepth 100000

/-! Civil (proleptic Gregorian) calendar arithmetic over day numbers,
modelling the host date semantics (epoch day 0 = 1970-01-01). -/

/-- Leap-year test on an arbitrary integer year. -/
def isLeapYear (y : Int) : Bool := y % 4 == 0 && (y % 100 != 0 || y % 400 == 0)

/-- Start of shifted (March-based) year `yoe` within a 400-year era, in days. -/
def soy (yoe : Nat) : Nat := 365 * yoe + yoe / 4 - yoe / 100 + yoe / 400

def leapYoe (yoe : Nat) : Bool :=
  (yoe + 1) % 4 == 0 && ((yoe + 1) % 100 != 0 || (yoe + 1) % 400 == 0)

def lenYoe (yoe : Nat) : Nat := if leapYoe yoe then 366 else 365

/-- Year-of-era from day-of-era: approximate then correct. -/
def yoeFromDoe (doe : Nat) : Nat :=
  let y0 := doe / 366
  if doe < soy (y0 + 1) then y0 else y0 + 1

/-- Cumulative day offset of shifted month `mp` (0 = March … 11 = February). -/
def monthOffset : Nat → Nat
  | 0 => 0 | 1 => 31 | 2 => 61 | 3 => 92 | 4 => 122 | 5 => 153
  | 6 => 184 | 7 => 214 | 8 => 245 | 9 => 275 | 10 => 306 | _ => 337

/-- Maximal length of shifted month `mp` (February gets 29). -/
def monthLenMax : Nat → Nat
  | 1 => 30 | 3 => 30 | 6 => 30 | 8 => 30 | 11 => 29 | _ => 31

/-- Shifted month from day-of-shifted-year. -/
def mpOfDoy (doy : Nat) : Nat :=
  if doy < 31 then 0 else if doy < 61 then 1 else if doy < 92 then 2
  else if doy < 122 then 3 else if doy < 153 then 4 else if doy < 184 then 5
  else if doy < 214 then 6 else if doy < 245 then 7 else if doy < 275 then 8
  else if doy < 306 then 9 else if doy < 337 then 10 else 11

/-- A calendar date as seen through the host accessors: year, 0-based month, day. -/
@[ext]
structure Civil where
  year : Int
  month : Nat
  day : Int
  deriving DecidableEq, Repr

/-- Day number of a civil date (0-based month `m < 12`, arbitrary day overflow). -/
def daysFromCivil (y : Int) (m : Nat) (d : Int) : Int :=
  let yS : Int := if m ≤ 1 then y - 1 else y
  let mp : Nat := if m ≤ 1 then m + 10 else m - 2
  365 * yS + yS / 4 - yS / 100 + yS / 400 + (monthOffset mp : Int) + d - 1 - 719468

/-- Civil date of a day number. -/
def civilFromDays (z : Int) : Civil :=
  let era := (z + 719468) / 146097
  let doe := ((z + 719468) % 146097).toNat
  let yoe := yoeFromDoe doe
  let doy := doe - soy yoe
  let mp := mpOfDoy doy
  let d := doy - monthOffset mp + 1
  if mp ≤ 9 then ⟨400 * era + yoe, mp + 2, d⟩ else ⟨400 * era + yoe + 1, mp - 10, d⟩

/-- Days-in-month lookup table for non-leap years (`DAYS_IN_MONTH`). -/
def DAYS_IN_MONTH : List Nat := [31, 28, 31, 30, 31, 30, 31, 31, 30, 31, 30, 31]

/-- `getDaysInMonth(year, month)` of `manipulate.js` (0-based month,
leap-aware for February); out-of-range indexing cannot occur at its call
sites, the `getD` default is arbitrary. -/
def getDaysInMonth (y : Int) (m : Nat) : Nat :=
  if m = 1 then (if isLeapYear y then 29 else 28)
  else DAYS_IN_MONTH.getD m 31

-- ============ bounded facts by decide ============

theorem soy_le (y : Nat) (h : y < 401) : soy y ≤ 366 * y := by
  revert y h; decide

theorem soy_step (y : Nat) (h : y < 400) : soy (y + 1) = soy y + lenYoe y := by
  revert y h; decide

theorem le_soy_add_len (z : Nat) (h : z < 400) : 366 * z ≤ soy z + lenYoe z := by
  revert z h; decide

theorem soy_succ_le (y : Nat) (h : y < 400) : soy (y + 1) ≤ 146097 := by
  revert y h; decide

theorem soy_mono_succ (y : Nat) (h : y < 400) : soy y ≤ soy (y + 1) := by
  revert y h; decide

theorem mp_char (doy : Nat) (h : doy < 366) :
    mpOfDoy doy ≤ 11 ∧ monthOffset (mpOfDoy doy) ≤ doy ∧
      doy - monthOffset (mpOfDoy doy) + 1 ≤ monthLenMax (mpOfDoy doy) ∧
      (doy = 365 → mpOfDoy doy = 11) := by
  revert doy h; decide

theorem monthLenMax_le (mp : Nat) (h : mp < 12) : monthLenMax mp ≤ 31 := by
  revert mp h; decide

theorem mp_roundtrip' : ∀ mp < 12, ∀ t < 31,
    (t < monthLenMax mp → mpOfDoy (monthOffset mp + t) = mp) := by
  decide

theorem mp_roundtrip (mp t : Nat) (hmp : mp < 12) (ht : t < monthLenMax mp) :
    mpOfDoy (monthOffset mp + t) = mp :=
  mp_roundtrip' mp hmp t (by have := monthLenMax_le mp hmp; omega) ht

theorem offset_add_len_le (mp : Nat) (hmp : mp < 12) :
    monthOffset mp + monthLenMax mp ≤ 366 := by
  revert mp hmp; decide

-- ============ characterization lemmas ============

theorem yoe_char (doe : Nat) (h : doe < 146097) :
    yoeFromDoe doe ≤ 399 ∧ soy (yoeFromDoe doe) ≤ doe ∧
      doe < soy (yoeFromDoe doe) + lenYoe (yoeFromDoe doe) := by
  unfold yoeFromDoe
  generalize hg : doe / 366 = y0
  have hb1 : 366 * y0 ≤ doe := by omega
  have hb2 : doe < 366 * y0 + 366 := by omega
  clear hg
  have hy0 : y0 ≤ 399 := by omega
  by_cases hlt : doe < soy (y0 + 1)
  · rw [if_pos hlt]
    have h1 : soy y0 ≤ 366 * y0 := soy_le y0 (by omega)
    have h2 : soy (y0 + 1) = soy y0 + lenYoe y0 := soy_step y0 (by omega)
    exact ⟨hy0, by omega, by omega⟩
  · rw [if_neg hlt]
    have hne : y0 ≠ 399 := by
      intro he
      subst he
      have : soy (399 + 1) = 146097 := by decide
      omega
    have h3 : 366 * (y0 + 1) ≤ soy (y0 + 1) + lenYoe (y0 + 1) :=
      le_soy_add_len (y0 + 1) (by omega)
    exact ⟨by omega, by omega, by omega⟩

theorem soy_mono {a b : Nat} (h : a ≤ b) (hb : b ≤ 400) : soy a ≤ soy b := by
  induction b with
  | zero =>
    have ha : a = 0 := by omega
    simp [ha]
  | succ n ih =>
    rcases Nat.eq_or_lt_of_le h with heq | hlt
    · rw [heq]
    · exact le_trans (ih (by omega) (by omega)) (soy_mono_succ n (by omega))

theorem yoe_unique (doe j : Nat) (hdoe : doe < 146097) (hj : j ≤ 399)
    (h1 : soy j ≤ doe) (h2 : doe < soy j + lenYoe j) : yoeFromDoe doe = j := by
  obtain ⟨hy1, hy2, hy3⟩ := yoe_char doe hdoe
  set yc := yoeFromDoe doe with hyc
  rcases Nat.lt_trichotomy yc j with hlt | heq | hgt
  · exfalso
    have hstep : soy (yc + 1) = soy yc + lenYoe yc := soy_step yc (by omega)
    have hmono : soy (yc + 1) ≤ soy j := soy_mono (by omega) (by omega)
    omega
  · exact heq
  · exfalso
    have hstep : soy (j + 1) = soy j + lenYoe j := soy_step j (by omega)
    have hmono : soy (j + 1) ≤ soy yc := soy_mono (by omega) (by omega)
    omega

theorem isLeapYear_iff (y : Int) :
    isLeapYear y = true ↔ (y % 4 = 0 ∧ (y % 100 ≠ 0 ∨ y % 400 = 0)) := by
  simp [isLeapYear]

theorem leapYoe_iff (j : Nat) :
    leapYoe j = true ↔
      ((j + 1) % 4 = 0 ∧ ((j + 1) % 100 ≠ 0 ∨ (j + 1) % 400 = 0)) := by
  simp [leapYoe]

theorem leap_congr (k : Int) (j : Nat) (_hj : j < 400) :
    isLeapYear (400 * k + j + 1) = leapYoe j := by
  cases hb : leapYoe j with
  | true =>
    have hn := (leapYoe_iff j).mp hb
    exact (isLeapYear_iff _).mpr (by omega)
  | false =>
    have hn : ¬((j + 1) % 4 = 0 ∧ ((j + 1) % 100 ≠ 0 ∨ (j + 1) % 400 = 0)) := by
      intro hc
      rw [(leapYoe_iff j).mpr hc] at hb
      simp at hb
    rw [Bool.eq_false_iff]
    intro hc
    exact hn (by have := (isLeapYear_iff _).mp hc; omega)


theorem nonfeb_len (mp : Nat) (h : mp < 11) :
    monthOffset mp + monthLenMax mp ≤ 365 := by
  revert mp h; decide

theorem nonfeb_table : ∀ mp < 12, mp ≠ 11 →
    monthLenMax mp =
      DAYS_IN_MONTH.getD (if mp ≤ 9 then mp + 2 else mp - 10) 31 := by
  decide

/-- The 400-year bridge: the day-number year function splits into eras. -/
theorem g_bridge (k : Int) (j : Nat) (hj : j < 400) :
    365 * (400 * k + j) + (400 * k + j) / 4 - (400 * k + j) / 100
        + (400 * k + j) / 400 = 146097 * k + (soy j : Int) := by
  simp only [soy]
  omega

/-- Round trip A: the civil view of any day number is a valid calendar date
and recomposes to the same day number. -/
theorem civilFromDays_char (z : Int) :
    (civilFromDays z).month < 12 ∧ 1 ≤ (civilFromDays z).day ∧
      (civilFromDays z).day ≤ getDaysInMonth (civilFromDays z).year (civilFromDays z).month ∧
      daysFromCivil (civilFromDays z).year (civilFromDays z).month (civilFromDays z).day = z := by
  have hw : z + 719468 = 146097 * ((z + 719468) / 146097) + ((z + 719468) % 146097) := by
    omega
  have hnn : 0 ≤ (z + 719468) % 146097 := by omega
  have hub : (z + 719468) % 146097 < 146097 := by omega
  simp only [civilFromDays]
  generalize hera : (z + 719468) / 146097 = era at *
  generalize hdoeI : (z + 719468) % 146097 = doeI at *
  have hdoeN : doeI.toNat < 146097 := by omega
  generalize hdoe : doeI.toNat = doe at *
  have hdoeI' : doeI = (doe : Int) := by omega
  subst hdoeI'
  obtain ⟨hy1, hy2, hy3⟩ := yoe_char doe hdoeN
  generalize hyoe : yoeFromDoe doe = yoe at *
  have hlen : lenYoe yoe ≤ 366 := by unfold lenYoe; split <;> omega
  have hdoy : doe - soy yoe < 366 := by omega
  obtain ⟨hm1, hm2, hm3, hm4⟩ := mp_char (doe - soy yoe) hdoy
  generalize hmp : mpOfDoy (doe - soy yoe) = mp at *
  have hleapy : isLeapYear (400 * era + yoe + 1) = leapYoe yoe := leap_congr era yoe (by omega)
  have hb := g_bridge era yoe (by omega)
  by_cases h9 : mp ≤ 9
  · rw [if_pos h9]
    dsimp only
    have hmne : mp + 2 ≠ 1 := by omega
    have hcond : ¬ (mp + 2 ≤ 1) := by omega
    have htbl := nonfeb_table mp (by omega) (by omega)
    rw [if_pos h9] at htbl
    refine ⟨by omega, by omega, ?_, ?_⟩
    · simp only [getDaysInMonth, if_neg hmne]
      omega
    · simp only [daysFromCivil, if_neg hcond, Nat.add_sub_cancel]
      omega
  · rw [if_neg h9]
    dsimp only
    have h1011 : mp = 10 ∨ mp = 11 := by omega
    have hcond : mp - 10 ≤ 1 := by omega
    have hms : mp - 10 + 10 = mp := by omega
    refine ⟨by omega, by omega, ?_, ?_⟩
    · rcases h1011 with h10 | h11
      · subst h10
        have htbl := nonfeb_table 10 (by omega) (by omega)
        rw [if_neg (by omega : ¬ (10:Nat) ≤ 9)] at htbl
        have hmne : (10:Nat) - 10 ≠ 1 := by omega
        simp only [getDaysInMonth, if_neg hmne]
        revert htbl
        norm_num
        omega
      · subst h11
        have hmeq : (11:Nat) - 10 = 1 := rfl
        have hml : monthLenMax 11 = 29 := rfl
        have hoff : monthOffset 11 = 337 := rfl
        simp only [getDaysInMonth, if_pos hmeq, hleapy]
        rw [hoff] at hm2 hm3
        rw [hml] at hm3
        rw [hoff]
        cases hlp : leapYoe yoe with
        | true =>
          have hl6 : lenYoe yoe = 366 := by simp [lenYoe, hlp]
          norm_num
          omega
        | false =>
          have hl5 : lenYoe yoe = 365 := by simp [lenYoe, hlp]
          norm_num
          omega
    · simp only [daysFromCivil, if_pos hcond, hms]
      rw [show (400 * era + (yoe:Int) + 1 - 1) = 400 * era + yoe by ring]
      omega


theorem table_eq_lenMax : ∀ m < 12, m ≠ 1 →
    DAYS_IN_MONTH.getD m 31 =
      monthLenMax (if m ≤ 1 then m + 10 else m - 2) := by
  decide

/-- Round trip B: a valid calendar date is recovered from its day number. -/
theorem daysFromCivil_roundtrip (y : Int) (m : Nat) (d : Int) (hm : m < 12)
    (hd1 : 1 ≤ d) (hd2 : d ≤ (getDaysInMonth y m : Int)) :
    civilFromDays (daysFromCivil y m d) = ⟨y, m, d⟩ := by
  -- names for the shifted year and month
  set yS : Int := if m ≤ 1 then y - 1 else y with hyS
  set mp : Nat := if m ≤ 1 then m + 10 else m - 2 with hmpd
  have hmp12 : mp < 12 := by rw [hmpd]; split <;> omega
  -- era decomposition of the shifted year
  have hk : yS = 400 * (yS / 400) + ((yS % 400).toNat : Int) := by omega
  generalize hke : yS / 400 = k at *
  have hj400 : (yS % 400).toNat < 400 := by omega
  generalize hje : (yS % 400).toNat = j at *
  -- day-of-month, zero based
  have ht : d = ((d - 1).toNat : Int) + 1 := by omega
  generalize hte : (d - 1).toNat = t at *
  -- the leap structure of the year carrying February
  have hleapy : isLeapYear (400 * k + j + 1) = leapYoe j := leap_congr k j hj400
  -- day is within the shifted month
  have htb : t < monthLenMax mp := by
    by_cases h1 : m = 1
    · have hmp11 : mp = 11 := by rw [hmpd, h1]; decide
      have hd29 : getDaysInMonth y m ≤ 29 := by
        rw [h1]
        simp only [getDaysInMonth]
        norm_num
        split <;> omega
      have hml : monthLenMax mp = 29 := by rw [hmp11]; decide
      omega
    · have htbl := table_eq_lenMax m hm h1
      rw [← hmpd] at htbl
      have hgd : getDaysInMonth y m = DAYS_IN_MONTH.getD m 31 := by
        simp only [getDaysInMonth, if_neg h1]
      omega
  -- day-of-shifted-year is within the shifted year
  have hlen : monthOffset mp + t < lenYoe j := by
    have hlen365 : 365 ≤ lenYoe j := by unfold lenYoe; split <;> omega
    by_cases h1 : m = 1
    · have hmp11 : mp = 11 := by rw [hmpd, h1]; decide
      have hoff : monthOffset mp = 337 := by rw [hmp11]; decide
      have hml : monthLenMax mp = 29 := by rw [hmp11]; decide
      have hyy : y = 400 * k + ↑j + 1 := by
        rw [hyS, if_pos (by omega : m ≤ 1)] at hk
        omega
      cases hlp : leapYoe j with
      | true =>
        have h366 : lenYoe j = 366 := by simp [lenYoe, hlp]
        omega
      | false =>
        have h365 : lenYoe j = 365 := by simp [lenYoe, hlp]
        have hly : isLeapYear y = false := by rw [hyy, hleapy, hlp]
        have hd28 : getDaysInMonth y m = 28 := by
          rw [h1]
          simp [getDaysInMonth, hly]
        omega
    · have hmp11 : mp < 11 := by
        rw [hmpd]
        split <;> omega
      have := nonfeb_len mp hmp11
      omega
  -- the day-of-era of the recomposed day number
  have hsoy1 : soy j + lenYoe j = soy (j + 1) := (soy_step j (by omega)).symm
  have hsoy2 : soy (j + 1) ≤ 146097 := soy_succ_le j (by omega)
  have hdoe : soy j + (monthOffset mp + t) < 146097 := by omega
  -- the recomposed day number
  have hz : daysFromCivil y m d + 719468 =
      146097 * k + ((soy j + (monthOffset mp + t) : Nat) : Int) := by
    simp only [daysFromCivil, ← hyS, ← hmpd]
    rw [hk]
    have hb := g_bridge k j hj400
    omega
  -- unfold the inverse conversion at that day number
  simp only [civilFromDays, hz]
  have he1 : (146097 * k + ((soy j + (monthOffset mp + t) : Nat) : Int)) / 146097 = k := by
    omega
  have he2 : ((146097 * k + ((soy j + (monthOffset mp + t) : Nat) : Int)) % 146097).toNat
      = soy j + (monthOffset mp + t) := by
    omega
  rw [he1, he2]
  have hyoe : yoeFromDoe (soy j + (monthOffset mp + t)) = j :=
    yoe_unique _ j (by omega) (by omega) (by omega) (by omega)
  rw [hyoe]
  have hdoy : soy j + (monthOffset mp + t) - soy j = monthOffset mp + t := by omega
  rw [hdoy]
  rw [mp_roundtrip mp t hmp12 htb]
  have hday : monthOffset mp + t - monthOffset mp + 1 = t + 1 := by omega
  rw [hday]
  by_cases h1 : m ≤ 1
  · have hmpv : mp = m + 10 := by rw [hmpd, if_pos h1]
    have hyy : y = 400 * k + ↑j + 1 := by
      rw [hyS, if_pos h1] at hk
      omega
    rw [if_neg (by omega : ¬ mp ≤ 9)]
    refine Civil.ext ?_ ?_ ?_ <;> dsimp only <;> omega
  · have hmpv : mp = m - 2 := by rw [hmpd, if_neg h1]
    have hyy : y = 400 * k + ↑j := by
      rw [hyS, if_neg h1] at hk
      omega
    rw [if_pos (by omega : mp ≤ 9)]
    refine Civil.ext ?_ ?_ ?_ <;> dsimp only <;> omega



/-! ## The host `Date` layer

ECMAScript `Date` semantics (with the host time zone fixed at UTC): field
accessors, `Date.UTC`/constructor composition including its year 0–99
rebasing, and the field setters used by the library. -/

def msPerSecond : Int := 1000
def msPerMinute : Int := 60000
def msPerHour : Int := 3600000
def msPerDay : Int := 86400000
def msPerWeek : Int := 604800000

/-- ECMAScript `Day(t)`. -/
def dayNumber (t : Int) : Int := t / 86400000

/-- ECMAScript `TimeWithinDay(t)` (non-negative). -/
def timeOfDay (t : Int) : Int := t % 86400000

def getFullYear (t : Int) : Int := (civilFromDays (dayNumber t)).year
def getMonth (t : Int) : Nat := (civilFromDays (dayNumber t)).month
def getDate (t : Int) : Int := (civilFromDays (dayNumber t)).day
def getHours (t : Int) : Int := timeOfDay t / 3600000
def getMinutes (t : Int) : Int := t % 3600000 / 60000
def getSeconds (t : Int) : Int := t % 60000 / 1000
def getMilliseconds (t : Int) : Int := t % 1000

/-- ECMAScript `WeekDay(t)`: 0 = Sunday (day 0 of the epoch is a Thursday). -/
def getDay (t : Int) : Int := (dayNumber t + 4) % 7

/-- ECMAScript `MakeDay(year, month, date)`: the month is renormalized by
floor division, the day may overflow freely. -/
def makeDay (y m d : Int) : Int := daysFromCivil (y + m / 12) ((m % 12).toNat) d

/-- ECMAScript `MakeDate(day, time)`. -/
def makeDateTime (day time : Int) : Int := day * 86400000 + time

/-- ECMAScript `MakeFullYear`: the `Date` constructor and `Date.UTC` rebase
years 0–99 to 1900+y. -/
def makeFullYear (y : Int) : Int := if 0 ≤ y ∧ y ≤ 99 then 1900 + y else y

/-- `Date.UTC(y, m, d, h, mi, s, ms)`; with the host zone fixed at UTC this
is also `new Date(y, m, d, h, mi, s, ms)`. -/
def jsDateUTC (y m d h mi s ms : Int) : Int :=
  makeDateTime (makeDay (makeFullYear y) m d)
    (h * 3600000 + mi * 60000 + s * 1000 + ms)

/-- `d.setFullYear(y)` (month and day-of-month read from `t`). -/
def jsSetFullYear (t y : Int) : Int :=
  makeDateTime (makeDay y (getMonth t) (getDate t)) (timeOfDay t)

/-- `d.setMonth(m, day)` (two-argument form). -/
def jsSetMonthDay (t m day : Int) : Int :=
  makeDateTime (makeDay (getFullYear t) m day) (timeOfDay t)

/-- `d.setDate(day)`. -/
def jsSetDate (t day : Int) : Int :=
  makeDateTime (makeDay (getFullYear t) (getMonth t) day) (timeOfDay t)

/-! Round-trip corollaries at the `Date` layer. -/

theorem timeOfDay_nonneg (t : Int) : 0 ≤ timeOfDay t := by
  unfold timeOfDay; omega

theorem timeOfDay_lt (t : Int) : timeOfDay t < 86400000 := by
  unfold timeOfDay; omega

/-- The accessors of any epoch value form a valid calendar date. -/
theorem getters_valid (t : Int) :
    getMonth t < 12 ∧ 1 ≤ getDate t ∧
      getDate t ≤ getDaysInMonth (getFullYear t) (getMonth t) := by
  obtain ⟨h1, h2, h3, _⟩ := civilFromDays_char (dayNumber t)
  exact ⟨h1, h2, h3⟩

/-- The accessors of any epoch value recompose to that epoch value. -/
theorem getters_recompose (t : Int) :
    makeDateTime (daysFromCivil (getFullYear t) (getMonth t) (getDate t))
      (timeOfDay t) = t := by
  obtain ⟨_, _, _, h4⟩ := civilFromDays_char (dayNumber t)
  simp only [getFullYear, getMonth, getDate, makeDateTime]
  rw [h4]
  unfold dayNumber timeOfDay
  omega

/-- `makeDay` with an in-range month is plain composition. -/
theorem makeDay_eq (y : Int) (m : Nat) (d : Int) (hm : m < 12) :
    makeDay y m d = daysFromCivil y m d := by
  unfold makeDay
  have h1 : (m : Int) / 12 = 0 := by omega
  have h2 : ((m : Int) % 12).toNat = m := by omega
  rw [h1, h2, add_zero]

/-- Reading the fields back from a composed valid date and time. -/
theorem fields_of_make (y : Int) (m : Nat) (d tod : Int) (hm : m < 12)
    (hd1 : 1 ≤ d) (hd2 : d ≤ getDaysInMonth y m)
    (ht1 : 0 ≤ tod) (ht2 : tod < 86400000) :
    getFullYear (makeDateTime (daysFromCivil y m d) tod) = y ∧
      getMonth (makeDateTime (daysFromCivil y m d) tod) = m ∧
      getDate (makeDateTime (daysFromCivil y m d) tod) = d ∧
      timeOfDay (makeDateTime (daysFromCivil y m d) tod) = tod := by
  have hday : dayNumber (makeDateTime (daysFromCivil y m d) tod)
      = daysFromCivil y m d := by
    unfold dayNumber makeDateTime
    omega
  have htod : timeOfDay (makeDateTime (daysFromCivil y m d) tod) = tod := by
    unfold timeOfDay makeDateTime
    omega
  have hrt := daysFromCivil_roundtrip y m d hm hd1 hd2
  unfold getFullYear getMonth getDate
  rw [hday, hrt]
  exact ⟨rfl, rfl, rfl, htod⟩

/-! ## The arithmetic engine (`src/manipulate.js`) -/

/-- Unit alias table (`UNIT_MAP` in `manipulate.js`). -/
def UNIT_MAP (u : String) : Option String :=
  if u = "y" ∨ u = "year" ∨ u = "years" then some "year"
  else if u = "Q" ∨ u = "quarter" ∨ u = "quarters" then some "quarter"
  else if u = "M" ∨ u = "month" ∨ u = "months" then some "month"
  else if u = "w" ∨ u = "week" ∨ u = "weeks" then some "week"
  else if u = "isoWeek" ∨ u = "isoWeeks" then some "isoWeek"
  else if u = "d" ∨ u = "day" ∨ u = "days" then some "day"
  else if u = "h" ∨ u = "hour" ∨ u = "hours" then some "hour"
  else if u = "m" ∨ u = "minute" ∨ u = "minutes" then some "minute"
  else if u = "s" ∨ u = "second" ∨ u = "seconds" then some "second"
  else if u = "ms" ∨ u = "millisecond" ∨ u = "milliseconds" then some "millisecond"
  else none

/-- `normalizeUnit`: fast paths, then alias lookup, falling back to the raw
string. -/
def normalizeUnit (unit : String) : String :=
  if unit = "day" ∨ unit = "days" ∨ unit = "d" then "day"
  else if unit = "month" ∨ unit = "months" ∨ unit = "M" then "month"
  else if unit = "year" ∨ unit = "years" ∨ unit = "y" then "year"
  else (UNIT_MAP unit).getD unit

/-- `add(ctx, value, unit)`: fixed-length units by timestamp arithmetic;
year via `setFullYear`; month via `setMonth(target, 1)` followed by a
day-of-month clamp; anything else falls through to a clone. -/
def add (t value : Int) (unit : String) : Int :=
  let u := normalizeUnit unit
  if u = "millisecond" then t + value
  else if u = "second" then t + value * msPerSecond
  else if u = "minute" then t + value * msPerMinute
  else if u = "hour" then t + value * msPerHour
  else if u = "day" then t + value * msPerDay
  else if u = "week" then t + value * msPerWeek
  else if u = "year" then jsSetFullYear t (getFullYear t + value)
  else if u = "month" then
    let targetMonth : Int := (getMonth t : Int) + value
    let dayOfMonth : Int := getDate t
    let t1 := jsSetMonthDay t targetMonth 1
    let maxDays : Int := getDaysInMonth (getFullYear t1) (getMonth t1)
    jsSetDate t1 (min dayOfMonth maxDays)
  else t

/-- `subtract` delegates to `add` with the negated value. -/
def subtract (t value : Int) (unit : String) : Int := add t (-value) unit

/-- `startOf(ctx, unit)`; the constructor calls are local-time construction
with the host zone at UTC.  The sub-day cases use the JS `%` (truncating
remainder) on the raw timestamp, exactly as the source does. -/
def startOf (t : Int) (unit : String) : Int :=
  let u := normalizeUnit unit
  if u = "year" then jsDateUTC (getFullYear t) 0 1 0 0 0 0
  else if u = "quarter" then jsDateUTC (getFullYear t) (getMonth t / 3 * 3) 1 0 0 0 0
  else if u = "month" then jsDateUTC (getFullYear t) (getMonth t) 1 0 0 0 0
  else if u = "week" then
    jsDateUTC (getFullYear t) (getMonth t) (getDate t - getDay t) 0 0 0 0
  else if u = "isoWeek" then
    let day := getDay t
    let diff : Int := if day = 0 then -6 else 1 - day
    jsDateUTC (getFullYear t) (getMonth t) (getDate t + diff) 0 0 0 0
  else if u = "day" then jsDateUTC (getFullYear t) (getMonth t) (getDate t) 0 0 0 0
  else if u = "hour" then t - Int.tmod t msPerHour
  else if u = "minute" then t - Int.tmod t msPerMinute
  else if u = "second" then t - Int.tmod t msPerSecond
  else t

/-- `endOf(ctx, unit)`. -/
def endOf (t : Int) (unit : String) : Int :=
  let u := normalizeUnit unit
  if u = "year" then jsDateUTC (getFullYear t) 11 31 23 59 59 999
  else if u = "quarter" then
    let quarterEndMonth : Nat := getMonth t / 3 * 3 + 2
    jsDateUTC (getFullYear t) quarterEndMonth
      (getDaysInMonth (getFullYear t) quarterEndMonth) 23 59 59 999
  else if u = "month" then
    jsDateUTC (getFullYear t) (getMonth t)
      (getDaysInMonth (getFullYear t) (getMonth t)) 23 59 59 999
  else if u = "week" then
    jsDateUTC (getFullYear t) (getMonth t) (getDate t + (6 - getDay t)) 23 59 59 999
  else if u = "isoWeek" then
    let day := getDay t
    let diff : Int := if day = 0 then 0 else 7 - day
    jsDateUTC (getFullYear t) (getMonth t) (getDate t + diff) 23 59 59 999
  else if u = "day" then jsDateUTC (getFullYear t) (getMonth t) (getDate t) 23 59 59 999
  else if u = "hour" then t - Int.tmod t msPerHour + msPerHour - 1
  else if u = "minute" then t - Int.tmod t msPerMinute + msPerMinute - 1
  else if u = "second" then t - Int.tmod t msPerSecond + msPerSecond - 1
  else t

/-- `set(ctx, unit, value)`: overwrite one field through the host setters,
no clamping; unhandled units leave the date untouched. -/
def set (t : Int) (unit : String) (value : Int) : Int :=
  let u := normalizeUnit unit
  if u = "year" then jsSetFullYear t value
  else if u = "month" then jsSetMonthDay t value (getDate t)
  else if u = "day" then jsSetDate t value
  else if u = "hour" then
    makeDateTime (dayNumber t)
      (value * 3600000 + getMinutes t * 60000 + getSeconds t * 1000 + getMilliseconds t)
  else if u = "minute" then
    makeDateTime (dayNumber t)
      (getHours t * 3600000 + value * 60000 + getSeconds t * 1000 + getMilliseconds t)
  else if u = "second" then
    makeDateTime (dayNumber t)
      (getHours t * 3600000 + getMinutes t * 60000 + value * 1000 + getMilliseconds t)
  else if u = "millisecond" then
    makeDateTime (dayNumber t)
      (getHours t * 3600000 + getMinutes t * 60000 + getSeconds t * 1000 + value)
  else t

theorem getDaysInMonth_ge (y : Int) (m : Nat) (hm : m < 12) :
    28 ≤ getDaysInMonth y m := by
  unfold getDaysInMonth
  split
  · split <;> omega
  · interval_cases m <;> decide

theorem getDaysInMonth_le (y : Int) (m : Nat) (hm : m < 12) :
    getDaysInMonth y m ≤ 31 := by
  unfold getDaysInMonth
  split
  · split <;> omega
  · interval_cases m <;> decide

/-- Internal: the month branch of `add`, written out. -/
theorem add_month_eq (u : String) (hu : normalizeUnit u = "month") (t N : Int) :
    add t N u =
      jsSetDate (jsSetMonthDay t ((getMonth t : Int) + N) 1)
        (min (getDate t)
          (getDaysInMonth (getFullYear (jsSetMonthDay t ((getMonth t : Int) + N) 1))
            (getMonth (jsSetMonthDay t ((getMonth t : Int) + N) 1)))) := by
  simp [add, hu]

/-- Internal: fields of `setMonth(target, 1)`. -/
theorem setMonthDay1_fields (t target : Int) :
    getFullYear (jsSetMonthDay t target 1) = getFullYear t + target / 12 ∧
      getMonth (jsSetMonthDay t target 1) = (target % 12).toNat ∧
      getDate (jsSetMonthDay t target 1) = 1 ∧
      timeOfDay (jsSetMonthDay t target 1) = timeOfDay t := by
  have hm' : (target % 12).toNat < 12 := by omega
  have hmk : makeDay (getFullYear t) target 1 =
      daysFromCivil (getFullYear t + target / 12) ((target % 12).toNat) 1 := rfl
  have hge := getDaysInMonth_ge (getFullYear t + target / 12) ((target % 12).toNat) hm'
  have hf := fields_of_make (getFullYear t + target / 12) ((target % 12).toNat) 1
    (timeOfDay t) hm' (by omega) (by omega) (timeOfDay_nonneg t) (timeOfDay_lt t)
  unfold jsSetMonthDay
  rw [hmk]
  exact hf

/-- Internal: `add` by months, as an explicit recomposition. -/
theorem add_month_closed (u : String) (hu : normalizeUnit u = "month") (t N : Int) :
    add t N u =
      makeDateTime
        (daysFromCivil (getFullYear t + ((getMonth t : Int) + N) / 12)
          ((((getMonth t : Int) + N) % 12).toNat)
          (min (getDate t)
            (getDaysInMonth (getFullYear t + ((getMonth t : Int) + N) / 12)
              ((((getMonth t : Int) + N) % 12).toNat) : Int)))
        (timeOfDay t) := by
  obtain ⟨hf1, hf2, hf3, hf4⟩ := setMonthDay1_fields t ((getMonth t : Int) + N)
  have hm' : ((((getMonth t : Int) + N) % 12)).toNat < 12 := by omega
  rw [add_month_eq u hu, hf1, hf2]
  unfold jsSetDate
  rw [hf1, hf2, hf4]
  rw [makeDay_eq _ _ _ hm']

/-- Internal: the fields of `add` by months. -/
theorem add_month_spec (u : String) (hu : normalizeUnit u = "month") (t N : Int) :
    getFullYear (add t N u)
        = getFullYear t + ((getMonth t : Int) + N) / 12 ∧
      (getMonth (add t N u) : Int) = ((getMonth t : Int) + N) % 12 ∧
      getDate (add t N u)
        = min (getDate t)
            (getDaysInMonth (getFullYear t + ((getMonth t : Int) + N) / 12)
              ((((getMonth t : Int) + N) % 12).toNat) : Int) ∧
      timeOfDay (add t N u) = timeOfDay t := by
  obtain ⟨hm12, hd1, hd2⟩ := getters_valid t
  have hm' : ((((getMonth t : Int) + N) % 12)).toNat < 12 := by omega
  have hge := getDaysInMonth_ge (getFullYear t + ((getMonth t : Int) + N) / 12)
    ((((getMonth t : Int) + N) % 12).toNat) hm'
  rw [add_month_closed u hu]
  -- the clamped day
  have hday1 : 1 ≤ min (getDate t)
      (getDaysInMonth (getFullYear t + ((getMonth t : Int) + N) / 12)
        ((((getMonth t : Int) + N) % 12).toNat) : Int) := by
    omega
  have hday2 : min (getDate t)
      (getDaysInMonth (getFullYear t + ((getMonth t : Int) + N) / 12)
        ((((getMonth t : Int) + N) % 12).toNat) : Int)
      ≤ (getDaysInMonth (getFullYear t + ((getMonth t : Int) + N) / 12)
          ((((getMonth t : Int) + N) % 12).toNat) : Int) := by
    omega
  obtain ⟨g1, g2, g3, g4⟩ :=
    fields_of_make _ _ _ _ hm' hday1 hday2 (timeOfDay_nonneg t) (timeOfDay_lt t)
  refine ⟨g1, ?_, g3, g4⟩
  rw [g2]
  omega

/-- Internal: `add` by years, as an explicit recomposition. -/
theorem add_year_closed (u : String) (hu : normalizeUnit u = "year") (t N : Int) :
    add t N u =
      makeDateTime (daysFromCivil (getFullYear t + N) (getMonth t) (getDate t))
        (timeOfDay t) := by
  obtain ⟨hm12, hd1, hd2⟩ := getters_valid t
  have : add t N u = jsSetFullYear t (getFullYear t + N) := by simp [add, hu]
  rw [this]
  unfold jsSetFullYear
  rw [makeDay_eq _ _ _ hm12]

/-- Internal: `add` for the fixed-length and no-op units. -/
theorem add_fixed (u : String) (t N : Int) :
    (normalizeUnit u = "millisecond" → add t N u = t + N) ∧
      (normalizeUnit u = "second" → add t N u = t + N * msPerSecond) ∧
      (normalizeUnit u = "minute" → add t N u = t + N * msPerMinute) ∧
      (normalizeUnit u = "hour" → add t N u = t + N * msPerHour) ∧
      (normalizeUnit u = "day" → add t N u = t + N * msPerDay) ∧
      (normalizeUnit u = "week" → add t N u = t + N * msPerWeek) ∧
      (normalizeUnit u = "quarter" → add t N u = t) ∧
      (normalizeUnit u = "isoWeek" → add t N u = t) := by
  refine ⟨?_, ?_, ?_, ?_, ?_, ?_, ?_, ?_⟩ <;> intro hu <;> simp [add, hu]

/-- C2: for every `Instant` (every finite epoch is valid in this model) and
every integer N, `add(i, N, "month")` has the year/month pair obtained by
floor division and modulo on `month + N`, its day of month is the original
day clamped to the days of the target month (leap-aware, via
`getDaysInMonth`), and the time of day is unchanged.  The concrete
conjuncts check `2026-01-31 + 1 month = 2026-02-28` (never March 2/3). -/
theorem claim2_add_month_div_mod_clamp :
    (∀ t N : Int,
      getFullYear (add t N "month")
          = getFullYear t + ((getMonth t : Int) + N) / 12 ∧
        (getMonth (add t N "month") : Int) = ((getMonth t : Int) + N) % 12 ∧
        getDate (add t N "month")
          = min (getDate t)
              (getDaysInMonth (getFullYear t + ((getMonth t : Int) + N) / 12)
                ((((getMonth t : Int) + N) % 12).toNat) : Int) ∧
        timeOfDay (add t N "month") = timeOfDay t) ∧
      getFullYear (add 1769817600000 1 "month") = 2026 ∧
      getMonth (add 1769817600000 1 "month") = 1 ∧
      getDate (add 1769817600000 1 "month") = 28 := by
  refine ⟨fun t N => add_month_spec "month" (by decide) t N, ?_, ?_, ?_⟩ <;> decide

/-- C3 (amended): `subtract(add(i, n, u), n, u) = i` holds unconditionally
for the fixed-length units millisecond..week (and for quarter/isoWeek,
which `add` treats as no-ops); for `month` it holds whenever the forward
day-of-month clamp does not fire; for `year` it holds whenever the original
day of month exists in the target year's month (`setFullYear` has no clamp,
so Feb 29 mapped into a non-leap year rolls over and the identity fails
there - see the counterexample theorem). -/
theorem claim3_subtract_add_inverse (u : String) (t n : Int)
    (hrec : normalizeUnit u ∈ (["millisecond", "second", "minute", "hour",
      "day", "week", "quarter", "isoWeek", "month", "year"] : List String))
    (hmonth : normalizeUnit u = "month" →
      getDate t ≤ (getDaysInMonth (getFullYear t + ((getMonth t : Int) + n) / 12)
        ((((getMonth t : Int) + n) % 12).toNat) : Int))
    (hyear : normalizeUnit u = "year" →
      getDate t ≤ (getDaysInMonth (getFullYear t + n) (getMonth t) : Int)) :
    subtract (add t n u) n u = t := by
  obtain ⟨hm12, hd1, hd2⟩ := getters_valid t
  unfold subtract
  simp only [List.mem_cons, List.not_mem_nil, or_false] at hrec
  obtain ⟨a1, a2, a3, a4, a5, a6, a7, a8⟩ := add_fixed u t n
  rcases hrec with hu | hu | hu | hu | hu | hu | hu | hu | hu | hu
  · obtain ⟨b1, _⟩ := add_fixed u (add t n u) (-n)
    rw [a1 hu] at b1 ⊢
    rw [b1 hu]; ring
  · obtain ⟨_, b2, _⟩ := add_fixed u (add t n u) (-n)
    rw [a2 hu] at b2 ⊢
    rw [b2 hu]; ring
  · obtain ⟨_, _, b3, _⟩ := add_fixed u (add t n u) (-n)
    rw [a3 hu] at b3 ⊢
    rw [b3 hu]; ring
  · obtain ⟨_, _, _, b4, _⟩ := add_fixed u (add t n u) (-n)
    rw [a4 hu] at b4 ⊢
    rw [b4 hu]; ring
  · obtain ⟨_, _, _, _, b5, _⟩ := add_fixed u (add t n u) (-n)
    rw [a5 hu] at b5 ⊢
    rw [b5 hu]; ring
  · obtain ⟨_, _, _, _, _, b6, _⟩ := add_fixed u (add t n u) (-n)
    rw [a6 hu] at b6 ⊢
    rw [b6 hu]; ring
  · obtain ⟨_, _, _, _, _, _, b7, _⟩ := add_fixed u (add t n u) (-n)
    rw [a7 hu] at b7 ⊢
    rw [b7 hu]
  · obtain ⟨_, _, _, _, _, _, _, b8⟩ := add_fixed u (add t n u) (-n)
    rw [a8 hu] at b8 ⊢
    rw [b8 hu]
  · -- month, with the clamp hypothesis
    have hcl := hmonth hu
    obtain ⟨f1, f2, f3, f4⟩ := add_month_spec u hu t n
    have hdeq : getDate (add t n u) = getDate t := by
      rw [f3]
      exact min_eq_left hcl
    rw [add_month_closed u hu (add t n u) (-n)]
    rw [f1, f2, hdeq, f4]
    have hy3 : getFullYear t + ((getMonth t : Int) + n) / 12
        + (((getMonth t : Int) + n) % 12 + -n) / 12 = getFullYear t := by
      omega
    have hm3 : ((((getMonth t : Int) + n) % 12 + -n) % 12).toNat = getMonth t := by
      omega
    rw [hy3, hm3]
    have : min (getDate t) (getDaysInMonth (getFullYear t) (getMonth t) : Int)
        = getDate t := min_eq_left hd2
    rw [this]
    exact getters_recompose t
  · -- year, with the target-day-exists hypothesis
    have hv := hyear hu
    rw [add_year_closed u hu t n]
    obtain ⟨g1, g2, g3, g4⟩ := fields_of_make (getFullYear t + n) (getMonth t)
      (getDate t) (timeOfDay t) hm12 hd1 hv (timeOfDay_nonneg t) (timeOfDay_lt t)
    rw [add_year_closed u hu _ (-n), g1, g2, g3, g4]
    have : getFullYear t + n + -n = getFullYear t := by ring
    rw [this]
    exact getters_recompose t

/-- C3 (counterexample to the claim as stated): for the year unit the
inverse identity can fail even though no month-step clamp is involved:
`2024-02-29` (epoch 1709164800000) plus one year rolls over to `2025-03-01`
(`setFullYear` does not clamp), and subtracting one year yields
`2024-03-01`, not the original leap day. -/
theorem claim3_counterexample :
    subtract (add 1709164800000 1 "year") 1 "year" ≠ 1709164800000 ∧
      getMonth 1709164800000 = 1 ∧ getDate 1709164800000 = 29 ∧
      getFullYear 1709164800000 = 2024 := by
  refine ⟨?_, by decide, by decide, by decide⟩
  decide

/-- Internal: an unmapped unit string normalizes to itself. -/
theorem normalizeUnit_unmapped (u : String) (h : UNIT_MAP u = none) :
    normalizeUnit u = u := by
  unfold normalizeUnit
  have h1 : ¬(u = "day" ∨ u = "days" ∨ u = "d") := by
    rintro (rfl | rfl | rfl) <;> simp [UNIT_MAP] at h
  have h2 : ¬(u = "month" ∨ u = "months" ∨ u = "M") := by
    rintro (rfl | rfl | rfl) <;> simp [UNIT_MAP] at h
  have h3 : ¬(u = "year" ∨ u = "years" ∨ u = "y") := by
    rintro (rfl | rfl | rfl) <;> simp [UNIT_MAP] at h
  rw [if_neg h1, if_neg h2, if_neg h3, h]
  rfl

/-- C8: a unit string that the unit table does not map is treated as a
no-op by `add`, `startOf`, `endOf` and `set`: each returns a clone whose
timestamp equals the receiver's.  (All four are total functions in this
model, so none of them can throw.) -/
theorem claim8_unmapped_unit_noop (t v value : Int) (u : String)
    (h : UNIT_MAP u = none) :
    add t v u = t ∧ startOf t u = t ∧ endOf t u = t ∧ set t u value = t := by
  have hnu := normalizeUnit_unmapped u h
  have hms : u ≠ "millisecond" := by rintro rfl; simp [UNIT_MAP] at h
  have hsec : u ≠ "second" := by rintro rfl; simp [UNIT_MAP] at h
  have hmin : u ≠ "minute" := by rintro rfl; simp [UNIT_MAP] at h
  have hhr : u ≠ "hour" := by rintro rfl; simp [UNIT_MAP] at h
  have hday : u ≠ "day" := by rintro rfl; simp [UNIT_MAP] at h
  have hwk : u ≠ "week" := by rintro rfl; simp [UNIT_MAP] at h
  have hyr : u ≠ "year" := by rintro rfl; simp [UNIT_MAP] at h
  have hmo : u ≠ "month" := by rintro rfl; simp [UNIT_MAP] at h
  have hq : u ≠ "quarter" := by rintro rfl; simp [UNIT_MAP] at h
  have hiw : u ≠ "isoWeek" := by rintro rfl; simp [UNIT_MAP] at h
  refine ⟨?_, ?_, ?_, ?_⟩ <;>
    simp only [add, startOf, endOf, set, hnu, if_neg hms, if_neg hsec,
      if_neg hmin, if_neg hhr, if_neg hday, if_neg hwk, if_neg hyr,
      if_neg hmo, if_neg hq, if_neg hiw]

/-- C8 witness at a concrete unmapped unit. -/
theorem claim8_witness :
    UNIT_MAP "fortnight" = none ∧
      add 123456789 2 "fortnight" = 123456789 ∧
      startOf 123456789 "fortnight" = 123456789 ∧
      endOf 123456789 "fortnight" = 123456789 ∧
      set 123456789 "fortnight" 7 = 123456789 := by
  have h : UNIT_MAP "fortnight" = none := by decide
  obtain ⟨h1, h2, h3, h4⟩ := claim8_unmapped_unit_noop 123456789 2 7 "fortnight" h
  exact ⟨h, h1, h2, h3, h4⟩

/-- C3 witness: a concrete fixed-unit instance of the amended inverse law. -/
theorem claim3_witness : subtract (add 0 5 "day") 5 "day" = 0 :=
  claim3_subtract_add_inverse "day" 0 5 (by decide) (by decide) (by decide)

/-! ## The validity checker (utils module) -/

/-- `isCalendarValid(year, month, day)`: 1-based month range check with a
leap-aware February bound. -/
def isCalendarValid (year month day : Int) : Bool :=
  if month < 1 ∨ month > 12 ∨ day < 1 then false
  else
    let maxDay : Nat :=
      if month = 2 ∧ isLeapYear year = true then 29
      else DAYS_IN_MONTH.getD (month - 1).toNat 31
    decide (day ≤ (maxDay : Int))

/-- The year/month/day extracted from an input string (1-based month). -/
structure ParsedDate where
  year : Int
  month : Int
  day : Int
  deriving DecidableEq, Repr

def digitVal (c : Char) : Nat := c.toNat - '0'.toNat

/-- The `MM/DD/YYYY` branch of `parseDateString` (slash-format prefix,
1-2 digit month and day, 4-digit year). -/
def parseSlashYear (month day : Nat) (cs : List Char) : Option ParsedDate :=
  match cs with
  | a :: b :: c :: d :: _ =>
    if a.isDigit ∧ b.isDigit ∧ c.isDigit ∧ d.isDigit then
      some ⟨(1000 * digitVal a + 100 * digitVal b + 10 * digitVal c + digitVal d : Nat),
        (month : Nat), (day : Nat)⟩
    else none
  | _ => none

def parseSlashDay (month : Nat) (cs : List Char) : Option ParsedDate :=
  match cs with
  | a :: '/' :: rest =>
    if a.isDigit then parseSlashYear month (digitVal a) rest else none
  | a :: b :: '/' :: rest =>
    if a.isDigit ∧ b.isDigit then
      parseSlashYear month (10 * digitVal a + digitVal b) rest
    else none
  | _ => none

def parseSlash (cs : List Char) : Option ParsedDate :=
  match cs with
  | a :: '/' :: rest =>
    if a.isDigit then parseSlashDay (digitVal a) rest else none
  | a :: b :: '/' :: rest =>
    if a.isDigit ∧ b.isDigit then
      parseSlashDay (10 * digitVal a + digitVal b) rest
    else none
  | _ => none

/-- `parseDateString(str)`: extract year/month/day from a `YYYY-MM-DD`
prefix, else from a `MM/DD/YYYY` prefix, else fail. -/
def parseDateString (s : String) : Option ParsedDate :=
  match s.data with
  | a :: b :: c :: d :: '-' :: e :: f :: '-' :: g :: h :: _ =>
    if a.isDigit ∧ b.isDigit ∧ c.isDigit ∧ d.isDigit ∧ e.isDigit ∧ f.isDigit
        ∧ g.isDigit ∧ h.isDigit then
      some ⟨(1000 * digitVal a + 100 * digitVal b + 10 * digitVal c + digitVal d : Nat),
        (10 * digitVal e + digitVal f : Nat), (10 * digitVal g + digitVal h : Nat)⟩
    else parseSlash s.data
  | _ => parseSlash s.data

/-- The `Instant` context object: the primitive date value (`none` models
an invalid `NaN` date), the locale, and the retained original input. -/
structure Ctx where
  _d : Option Int
  _l : Option String
  _input : Option String
  deriving DecidableEq

/-- `isValid(ctx)`: the date value must be finite; if the original input
was a string whose year/month/day can be extracted, the stored fields must
match the extracted ones (rollover detection) and the extracted date must
be calendar-valid. -/
def isValid (ctx : Ctx) : Bool :=
  match ctx._d with
  | none => false
  | some t =>
    match ctx._input with
    | some str =>
      match parseDateString str with
      | some p =>
        if getFullYear t = p.year ∧ (getMonth t : Int) + 1 = p.month
            ∧ getDate t = p.day
        then isCalendarValid p.year p.month p.day
        else false
      | none => true
    | none => true

/-- The range check of claim C1, stated from the claim's own words: month
in [1,12], day at least 1 and at most the true days-in-month, where a year
is a leap year iff divisible by 4 and (not divisible by 100 or divisible
by 400). -/
def specCalendarOk (year month day : Int) : Prop :=
  1 ≤ month ∧ month ≤ 12 ∧ 1 ≤ day ∧
    day ≤ ((if month = 2 ∧ (year % 4 = 0 ∧ (year % 100 ≠ 0 ∨ year % 400 = 0))
            then 29 else DAYS_IN_MONTH.getD (month - 1).toNat 31 : Nat) : Int)

instance (y m d : Int) : Decidable (specCalendarOk y m d) := by
  unfold specCalendarOk
  infer_instance

/-- Internal: the code's range check agrees with the claim's. -/
theorem isCalendarValid_iff (y m d : Int) :
    isCalendarValid y m d = true ↔ specCalendarOk y m d := by
  unfold isCalendarValid specCalendarOk
  have hl := isLeapYear_iff y
  by_cases h1 : m < 1 ∨ m > 12 ∨ d < 1
  · rw [if_pos h1]
    simp only [Bool.false_eq_true, false_iff]
    omega
  · rw [if_neg h1]
    by_cases hleap : y % 4 = 0 ∧ (y % 100 ≠ 0 ∨ y % 400 = 0)
    · have hb : isLeapYear y = true := hl.mpr hleap
      by_cases hm2 : m = 2
      · rw [if_pos ⟨hm2, hb⟩, if_pos ⟨hm2, hleap⟩]
        simp only [decide_eq_true_eq]
        omega
      · rw [if_neg (by tauto), if_neg (by tauto)]
        simp only [decide_eq_true_eq]
        omega
    · have hb : isLeapYear y = false := by
        cases hby : isLeapYear y with
        | true => exact absurd (hl.mp hby) hleap
        | false => rfl
      rw [if_neg (by simp [hb]), if_neg (by tauto)]
      simp only [decide_eq_true_eq]
      omega

/-- C1: for an `Instant` built from a text input whose year/month/day can
be extracted, `isValid` is true iff the claim's leap-aware range check
passes and the extracted fields equal the fields stored on the `Instant`
(an invalid `NaN` value stores no fields, so the match fails); for an
`Instant` not built from text, `isValid` is exactly finiteness of the
stored value, with no calendar check. -/
theorem claim1_isValid_characterization :
    (∀ (d : Option Int) (l : Option String) (s : String) (p : ParsedDate),
      parseDateString s = some p →
        (isValid ⟨d, l, some s⟩ = true ↔
          specCalendarOk p.year p.month p.day ∧
            ∃ t, d = some t ∧ getFullYear t = p.year ∧
              (getMonth t : Int) + 1 = p.month ∧ getDate t = p.day)) ∧
      (∀ (d : Option Int) (l : Option String), isValid ⟨d, l, none⟩ = d.isSome) := by
  constructor
  · intro d l s p hp
    cases d with
    | none =>
      simp only [isValid]
      constructor
      · intro h
        exact absurd h (by simp)
      · rintro ⟨-, t, ht, -⟩
        exact absurd ht (by simp)
    | some t =>
      simp only [isValid, hp]
      by_cases hmatch : getFullYear t = p.year ∧ (getMonth t : Int) + 1 = p.month
          ∧ getDate t = p.day
      · rw [if_pos hmatch]
        rw [isCalendarValid_iff]
        constructor
        · intro h
          exact ⟨h, t, rfl, hmatch.1, hmatch.2.1, hmatch.2.2⟩
        · rintro ⟨h, -⟩
          exact h
      · rw [if_neg hmatch]
        constructor
        · intro h
          exact absurd h (by simp)
        · rintro ⟨-, t', ht', h1, h2, h3⟩
          obtain rfl : t = t' := by injection ht'
          exact absurd ⟨h1, h2, h3⟩ hmatch
  · intro d l
    cases d <;> simp [isValid]

/-- C1 witness: `2026-02-29` does not exist; the rolled-over value stores
March 1, so both the field match and `isValid` reject it, while the same
machinery accepts `2026-02-28` (epoch 1772236800000). -/
theorem claim1_witness :
    parseDateString "2026-02-28" = some ⟨2026, 2, 28⟩ ∧
      isValid ⟨some 1772236800000, none, some "2026-02-28"⟩ = true := by
  have hp : parseDateString "2026-02-28" = some ⟨2026, 2, 28⟩ := by decide
  refine ⟨hp, ?_⟩
  rw [(claim1_isValid_characterization.1 (some 1772236800000) none
    "2026-02-28" ⟨2026, 2, 28⟩ hp)]
  refine ⟨by decide, 1772236800000, rfl, by decide, by decide, by decide⟩

/-! ## The entry point (`src/index.js`): fast ISO parsing, construction,
strict mode and global configuration. -/

/-- The time-zone suffix of the fast-parse grammar. -/
inductive TZPart where
  | absent
  | zulu
  | offset (isPlus : Bool) (h m : Nat)
  deriving DecidableEq, Repr

/-- Trailing `Z` or `[+-]HH:?mm`, anchored at the end of the string. -/
def parseTZ (cs : List Char) : Option TZPart :=
  match cs with
  | [] => some .absent
  | ['Z'] => some .zulu
  | c :: o1 :: o2 :: ':' :: o3 :: o4 :: [] =>
    if (c = '+' ∨ c = '-') ∧ o1.isDigit ∧ o2.isDigit ∧ o3.isDigit ∧ o4.isDigit then
      some (.offset (c = '+') (10 * digitVal o1 + digitVal o2)
        (10 * digitVal o3 + digitVal o4))
    else none
  | c :: o1 :: o2 :: o3 :: o4 :: [] =>
    if (c = '+' ∨ c = '-') ∧ o1.isDigit ∧ o2.isDigit ∧ o3.isDigit ∧ o4.isDigit then
      some (.offset (c = '+') (10 * digitVal o1 + digitVal o2)
        (10 * digitVal o3 + digitVal o4))
    else none
  | _ => none

/-- One to three fractional-second digits, greedily, right-padded with
zeros to milliseconds (the source's `padEnd(3, '0')`). -/
def takeFrac (cs : List Char) : Option (Nat × List Char) :=
  match cs with
  | a :: b :: c :: rest =>
    if a.isDigit ∧ b.isDigit ∧ c.isDigit then
      some (100 * digitVal a + 10 * digitVal b + digitVal c, rest)
    else if a.isDigit ∧ b.isDigit then
      some (100 * digitVal a + 10 * digitVal b, c :: rest)
    else if a.isDigit then some (100 * digitVal a, b :: c :: rest)
    else none
  | [a, b] =>
    if a.isDigit ∧ b.isDigit then some (100 * digitVal a + 10 * digitVal b, [])
    else if a.isDigit then some (100 * digitVal a, [b])
    else none
  | [a] => if a.isDigit then some (100 * digitVal a, []) else none
  | [] => none

/-- Optional `:ss[.SSS]` followed by the time-zone suffix. -/
def parseSec (cs : List Char) : Option (Nat × Nat × TZPart) :=
  match cs with
  | ':' :: s1 :: s2 :: rest =>
    if s1.isDigit ∧ s2.isDigit then
      match rest with
      | '.' :: rest2 =>
        match takeFrac rest2 with
        | some (msv, rest3) =>
          match parseTZ rest3 with
          | some tz => some (10 * digitVal s1 + digitVal s2, msv, tz)
          | none => none
        | none => none
      | _ =>
        match parseTZ rest with
        | some tz => some (10 * digitVal s1 + digitVal s2, 0, tz)
        | none => none
    else none
  | _ =>
    match parseTZ cs with
    | some tz => some (0, 0, tz)
    | none => none

/-- Optional `THH:mm[:ss[.SSS]]` followed by the time-zone suffix. -/
def parseTime (cs : List Char) : Option (Nat × Nat × Nat × Nat × TZPart) :=
  match cs with
  | 'T' :: h1 :: h2 :: ':' :: m1 :: m2 :: rest =>
    if h1.isDigit ∧ h2.isDigit ∧ m1.isDigit ∧ m2.isDigit then
      match parseSec rest with
      | some (sec, msv, tz) =>
        some (10 * digitVal h1 + digitVal h2, 10 * digitVal m1 + digitVal m2, sec, msv, tz)
      | none => none
    else none
  | _ =>
    match parseTZ cs with
    | some tz => some (0, 0, 0, 0, tz)
    | none => none

/-- `fastParseISO(str)`: positional parse of
`YYYY-MM-DD(THH:mm(:ss(.SSS)?)?)?(Z|[+-]HH:?mm)?`; with a `Z` suffix the
fields are composed through `Date.UTC`, a signed offset is subtracted from
that composition (`+` maps to `-1`), and with no suffix the fields build a
local-time date (the host zone is UTC in this model).  Any mismatch
returns `none` and the caller falls back to the platform parser. -/
def fastParseISO (s : String) : Option Int :=
  if s.length < 10 then none
  else
    match s.data with
    | y1 :: y2 :: y3 :: y4 :: '-' :: mo1 :: mo2 :: '-' :: d1 :: d2 :: rest =>
      if y1.isDigit ∧ y2.isDigit ∧ y3.isDigit ∧ y4.isDigit ∧ mo1.isDigit
          ∧ mo2.isDigit ∧ d1.isDigit ∧ d2.isDigit then
        match parseTime rest with
        | some (h, mi, sec, msv, tz) =>
          let year : Int :=
            (1000 * digitVal y1 + 100 * digitVal y2 + 10 * digitVal y3 + digitVal y4 : Nat)
          let month : Int := ((10 * digitVal mo1 + digitVal mo2 : Nat) : Int) - 1
          let day : Int := (10 * digitVal d1 + digitVal d2 : Nat)
          match tz with
          | .absent => some (jsDateUTC year month day h mi sec msv)
          | .zulu => some (jsDateUTC year month day h mi sec msv)
          | .offset isPlus oh om =>
            some (jsDateUTC year month day h mi sec msv
              + (if isPlus then -1 else 1) * ((oh : Int) * 60 + om) * 60000)
        | none => none
      else none
    | _ => none

/-- The inputs `nano` dispatches on (the no-argument clock path reads the
wall clock and is outside the claims). -/
inductive Input where
  | str (s : String)
  | num (n : Int)
  | date (t : Option Int)
  | nd (c : Ctx)

/-- The process-wide configuration object. -/
structure Config where
  strict : Bool
  locale : Option String
  timezone : Option String
  deriving DecidableEq

/-- The configuration `resetConfig()` restores. -/
def resetConfig : Config := ⟨false, none, none⟩

/-- Context construction of `nano(input, locale)`; `oracle` models the
platform's `new Date(string)` parser, an external collaborator. -/
def nanoCtx (oracle : String → Option Int) (input : Input)
    (locale : Option String) : Ctx :=
  match input with
  | .num n => ⟨some n, locale, none⟩
  | .nd c => ⟨c._d, (locale.orElse fun _ => c._l), c._input⟩
  | .date t => ⟨t, locale, none⟩
  | .str s =>
    match fastParseISO s with
    | some t => ⟨some t, locale, some s⟩
    | none => ⟨oracle s, locale, some s⟩

/-- `nano(input, locale)` under a configuration: in strict mode a context
built from a string input that fails `isValid` raises an error carrying
the offending input. -/
def nano (oracle : String → Option Int) (cfg : Config) (input : Input)
    (locale : Option String) : Except String Ctx :=
  let ctx := nanoCtx oracle input locale
  match ctx._input with
  | some s => if cfg.strict = true ∧ isValid ctx = false then .error s else .ok ctx
  | none => .ok ctx

/-- The per-call strict entry point `strict(input, locale)` for string
input: the platform parser is used directly and an invalid result raises
an error carrying the offending input. -/
def strictNano (oracle : String → Option Int) (s : String)
    (locale : Option String) : Except String Ctx :=
  let ctx : Ctx := ⟨oracle s, locale, some s⟩
  if isValid ctx = false then .error s else .ok ctx

/-- The UTC composition of broken-down fields, stated from the claim's
words: day number of the year/month/day plus the time of day, with no
year rebasing. -/
def utcCompose (y m d h mi sec ms : Int) : Int :=
  makeDateTime (makeDay y m d) (h * 3600000 + mi * 60000 + sec * 1000 + ms)

/-- C4 (code defect): the fast parser composes a `Z`-suffixed string via
`Date.UTC`, which rebases years 0-99 to 1900+y, so `0099-01-01T00:00:00Z`
parses to the epoch of 1999-01-01 rather than the UTC composition of the
parsed fields; for years outside 0-99 the claimed behavior is exhibited:
a `+01:00` offset moves the epoch one hour earlier than the UTC
composition, and `Z` yields the UTC composition itself. -/
theorem claim4_utc_rebase_defect :
    fastParseISO "0099-01-01T00:00:00Z" = some (utcCompose 1999 0 1 0 0 0 0) ∧
      fastParseISO "0099-01-01T00:00:00Z" ≠ some (utcCompose 99 0 1 0 0 0 0) ∧
      fastParseISO "2026-01-21T12:00:00+01:00"
        = some (utcCompose 2026 0 21 12 0 0 0 - 3600000) ∧
      fastParseISO "2026-01-21T12:30:45.123Z"
        = some (utcCompose 2026 0 21 12 30 45 123) := by
  exact ⟨by decide, by decide, by decide, by decide⟩

/-- C7: per-call strict construction from a string errors, carrying the
offending input, exactly when the validity check on the constructed
context is false, and returns the context otherwise; `nano` under the
reset (non-strict) configuration never errors and returns the context,
queryable via `isValid`; `nano` under a strict configuration errors on a
string input, again carrying the input, exactly when the validity check
fails. -/
theorem claim7_strict_and_permissive_modes :
    (∀ (oracle : String → Option Int) (s : String) (l : Option String),
      (strictNano oracle s l = .error s ↔ isValid ⟨oracle s, l, some s⟩ = false) ∧
        (strictNano oracle s l = .ok ⟨oracle s, l, some s⟩ ↔
          isValid ⟨oracle s, l, some s⟩ = true)) ∧
      (∀ (oracle : String → Option Int) (input : Input) (l : Option String),
        nano oracle resetConfig input l = .ok (nanoCtx oracle input l)) ∧
      (∀ (oracle : String → Option Int) (lo tz : Option String) (s : String)
        (l : Option String),
        nano oracle ⟨true, lo, tz⟩ (.str s) l = .error s ↔
          isValid (nanoCtx oracle (.str s) l) = false) := by
  refine ⟨?_, ?_, ?_⟩
  · intro oracle s l
    simp only [strictNano]
    cases h : isValid ⟨oracle s, l, some s⟩ with
    | false =>
      rw [if_pos rfl]
      constructor <;> simp
    | true =>
      rw [if_neg (by simp)]
      constructor <;> simp
  · intro oracle input l
    simp only [nano]
    split
    · rw [if_neg (by simp [resetConfig])]
    · rfl
  · intro oracle lo tz s l
    have hin : (nanoCtx oracle (.str s) l)._input = some s := by
      unfold nanoCtx
      cases hfp : fastParseISO s <;> simp [hfp]
    simp only [nano, hin]
    by_cases h : isValid (nanoCtx oracle (.str s) l) = false
    · rw [if_pos ⟨by trivial, h⟩]
      simp [h]
    · rw [if_neg (fun hc => h hc.2)]
      constructor
      · intro hc
        exact absurd hc (by simp)
      · intro hc
        exact absurd hc h

/-- C10: constructing from an existing context carries over the stored
date value and the original textual input, so the validity answer is
preserved across re-wrapping; concretely, re-wrapping `nano("2026-02-30")`
is still invalid even though the inner rolled-over date value is finite. -/
theorem claim10_rewrap_preserves_validity :
    (∀ (oracle : String → Option Int) (s : String) (l l2 : Option String),
      isValid (nanoCtx oracle (.nd (nanoCtx oracle (.str s) l)) l2)
        = isValid (nanoCtx oracle (.str s) l)) ∧
      isValid (nanoCtx (fun _ => none)
        (.nd (nanoCtx (fun _ => none) (.str "2026-02-30") none)) none) = false ∧
      (nanoCtx (fun _ => none) (.str "2026-02-30") none)._d.isSome = true := by
  refine ⟨?_, by decide, by decide⟩
  intro oracle s l l2
  rfl

/-! ## The Duration engine (`src/duration.js` and the shared constants) -/

/-- `MS_PER_MONTH` of the constants module: one twelfth of the average
year, 2629746000 ms = 365.2425/12 days, which its comment rounds to
"30.44 days". -/
def MS_PER_MONTH : Int := 2629746000

/-- `MS_PER_YEAR` of the constants module: 31556952000 ms = 365.2425
days, which its comment rounds to "365.25 days". -/
def MS_PER_YEAR : Int := 31556952000

/-- The record returned by `Duration.toObject()`.  A `Duration` itself
stores nothing but its signed millisecond total `_ms`. -/
structure DurObject where
  years : Int
  months : Int
  days : Int
  hours : Int
  minutes : Int
  seconds : Int
  milliseconds : Int
  deriving DecidableEq, Repr

/-- `Duration.toObject()`: every component is recomputed from the stored
total on each call (`Math.abs`, floor division and remainders of the
non-negative absolute value, the sign multiplied onto every component). -/
def toObject (ms : Int) : DurObject :=
  let a : Int := if ms < 0 then -ms else ms
  let sign : Int := if ms < 0 then -1 else 1
  ⟨a / MS_PER_YEAR * sign,
    a % MS_PER_YEAR / MS_PER_MONTH * sign,
    a % MS_PER_MONTH / 86400000 * sign,
    a % 86400000 / 3600000 * sign,
    a % 3600000 / 60000 * sign,
    a % 60000 / 1000 * sign,
    a % 1000 * sign⟩

/-- The decomposition claim C6 describes, taken at its word: successive
floor division and modulo of the absolute total against an average year
of 365.25 days (31557600000 ms) and an average month of 30.44 days
(2630016000 ms), sign applied uniformly. -/
def toObjectClaim (ms : Int) : DurObject :=
  let a : Int := if ms < 0 then -ms else ms
  let sign : Int := if ms < 0 then -1 else 1
  let r1 := a % 31557600000
  let r2 := r1 % 2630016000
  let r3 := r2 % 86400000
  let r4 := r3 % 3600000
  let r5 := r4 % 60000
  ⟨a / 31557600000 * sign, r1 / 2630016000 * sign, r2 / 86400000 * sign,
    r3 / 3600000 * sign, r4 / 60000 * sign, r5 / 1000 * sign, r5 % 1000 * sign⟩

/-- The corrected description of the decomposition: year and month follow
the successive chain against the code's constants (31556952000 ms and its
exact twelfth 2629746000 ms), the day component continues that chain, and
the sub-day components form their own successive chain from the absolute
total modulo one day; the sign of the total is applied uniformly. -/
def toObjectAmended (ms : Int) : DurObject :=
  let a : Int := if ms < 0 then -ms else ms
  let sign : Int := if ms < 0 then -1 else 1
  let r1 := a % MS_PER_YEAR
  let r2 := r1 % MS_PER_MONTH
  let rd := a % 86400000
  let rh := rd % 3600000
  let rm := rh % 60000
  ⟨a / MS_PER_YEAR * sign, r1 / MS_PER_MONTH * sign, r2 / 86400000 * sign,
    rd / 3600000 * sign, rh / 60000 * sign, rm / 1000 * sign, rm % 1000 * sign⟩

/-- C6 (amended): `toObject` equals the successive-chain decomposition
against the code's actual average-length constants, and negating the
stored total negates every component (uniform sign). -/
theorem claim6_duration_decomposition (ms : Int) :
    toObject ms = toObjectAmended ms ∧
      toObject (-ms) =
        ⟨-(toObject ms).years, -(toObject ms).months, -(toObject ms).days,
          -(toObject ms).hours, -(toObject ms).minutes, -(toObject ms).seconds,
          -(toObject ms).milliseconds⟩ := by
  constructor
  · simp only [toObject, toObjectAmended, MS_PER_YEAR, MS_PER_MONTH,
      DurObject.mk.injEq]
    by_cases h : ms < 0
    · simp only [if_pos h]
      refine ⟨?_, ?_, ?_, ?_, ?_, ?_, ?_⟩ <;> first | trivial | omega
    · simp only [if_neg h]
      refine ⟨?_, ?_, ?_, ?_, ?_, ?_, ?_⟩ <;> first | trivial | omega
  · simp only [toObject, MS_PER_YEAR, MS_PER_MONTH, DurObject.mk.injEq]
    rcases lt_trichotomy ms 0 with h | h | h
    · have h2 : ¬(-ms < 0) := by omega
      simp only [if_pos h, if_neg h2]
      refine ⟨?_, ?_, ?_, ?_, ?_, ?_, ?_⟩ <;> first | trivial | ring_nf
    · subst h
      refine ⟨?_, ?_, ?_, ?_, ?_, ?_, ?_⟩ <;> trivial
    · have h2 : ¬(ms < 0) := by omega
      by_cases h3 : -ms < 0
      · simp only [if_neg h2, if_pos h3]
        refine ⟨?_, ?_, ?_, ?_, ?_, ?_, ?_⟩ <;> first | trivial | ring_nf
      · have h4 : ms = 0 := by omega
        subst h4
        refine ⟨?_, ?_, ?_, ?_, ?_, ?_, ?_⟩ <;> trivial

/-- C6 (counterexample to the claim as stated): at a total of 2629800000
ms the code's month component is 1 (the code's month constant is
2629746000 ms = 365.2425/12 days), while the claim's literal 30.44-day
month (2630016000 ms) would give 0 months. -/
theorem claim6_counterexample :
    toObjectClaim 2629800000 ≠ toObject 2629800000 ∧
      (toObject 2629800000).months = 1 ∧
      (toObjectClaim 2629800000).months = 0 := by
  exact ⟨by decide, by decide, by decide⟩

/-! ## The bounded caches of `src/format.js`

`getFormatter` (capacity `MAX_FORMATTER_CACHE = 200`), `parseFormatTokens`
(`MAX_TOKEN_CACHE = 150`) and `getLocalePrecompiled`
(`MAX_COMPILED_CACHE = 100`) share one insertion shape, modelled here over
the keys alone (JS objects enumerate string keys in insertion order). -/

/-- A cache as seen by the eviction logic: keys in insertion order plus
the separately maintained size counter. -/
structure CacheState where
  keys : List String
  size : Nat
  deriving DecidableEq, Repr

def emptyCache : CacheState := ⟨[], 0⟩

/-- One get-or-insert step: a hit leaves the cache unchanged; a miss with
the counter at or above capacity deletes the keys with index
`i < keys.length / 2` (that is `⌈n/2⌉` many, the oldest half) and sets
the counter to `keys.length / 2`, then stores the new key and bumps the
counter. -/
def cacheInsert (maxSize : Nat) (st : CacheState) (k : String) : CacheState :=
  if k ∈ st.keys then st
  else
    let st' : CacheState :=
      if maxSize ≤ st.size then
        ⟨st.keys.drop ((st.keys.length + 1) / 2), st.keys.length / 2⟩
      else st
    ⟨st'.keys ++ [k], st'.size + 1⟩

/-- A workload of lookups, starting from the empty cache. -/
def cacheRun (maxSize : Nat) (ops : List String) : CacheState :=
  ops.foldl (cacheInsert maxSize) emptyCache

/-- Internal: one step preserves counter consistency and the bound. -/
theorem cacheInsert_inv (maxSize : Nat) (hmax : 2 ≤ maxSize) (st : CacheState)
    (k : String) (h1 : st.size = st.keys.length) (h2 : st.keys.length ≤ maxSize) :
    (cacheInsert maxSize st k).size = (cacheInsert maxSize st k).keys.length ∧
      (cacheInsert maxSize st k).keys.length ≤ maxSize := by
  unfold cacheInsert
  by_cases hmem : k ∈ st.keys
  · rw [if_pos hmem]
    exact ⟨h1, h2⟩
  · rw [if_neg hmem]
    by_cases hcap : maxSize ≤ st.size
    · simp only [if_pos hcap, List.length_append, List.length_drop,
        List.length_cons, List.length_nil]
      omega
    · simp only [if_neg hcap, List.length_append, List.length_cons,
        List.length_nil]
      omega

/-- Internal: the invariant holds after any workload. -/
theorem cacheRun_inv (maxSize : Nat) (hmax : 2 ≤ maxSize) (ops : List String) :
    (cacheRun maxSize ops).size = (cacheRun maxSize ops).keys.length ∧
      (cacheRun maxSize ops).keys.length ≤ maxSize := by
  suffices h : ∀ (ops : List String) (st : CacheState),
      st.size = st.keys.length → st.keys.length ≤ maxSize →
        (ops.foldl (cacheInsert maxSize) st).size
            = (ops.foldl (cacheInsert maxSize) st).keys.length ∧
          (ops.foldl (cacheInsert maxSize) st).keys.length ≤ maxSize by
    exact h ops emptyCache rfl (by simp [emptyCache])
  intro ops
  induction ops with
  | nil => exact fun st h1 h2 => ⟨h1, h2⟩
  | cons o rest ih =>
    intro st h1 h2
    obtain ⟨g1, g2⟩ := cacheInsert_inv maxSize hmax st o h1 h2
    exact ih (cacheInsert maxSize st o) g1 g2

/-- C9: each of the three formatting caches keeps its key count within its
capacity (200, 150, 100) across every workload starting from the empty
cache, with the size counter in sync with the actual key count; and at
capacity an inserting miss evicts exactly the oldest half of the keys
before storing the new entry. -/
theorem claim9_bounded_caches :
    (∀ ops : List String,
      (cacheRun 200 ops).size = (cacheRun 200 ops).keys.length ∧
        (cacheRun 200 ops).keys.length ≤ 200) ∧
      (∀ ops : List String,
        (cacheRun 150 ops).size = (cacheRun 150 ops).keys.length ∧
          (cacheRun 150 ops).keys.length ≤ 150) ∧
      (∀ ops : List String,
        (cacheRun 100 ops).size = (cacheRun 100 ops).keys.length ∧
          (cacheRun 100 ops).keys.length ≤ 100) ∧
      (∀ (st : CacheState) (k : String), st.size = st.keys.length →
        st.keys.length = 200 → k ∉ st.keys →
        cacheInsert 200 st k = ⟨st.keys.drop 100 ++ [k], 101⟩) ∧
      (∀ (st : CacheState) (k : String), st.size = st.keys.length →
        st.keys.length = 150 → k ∉ st.keys →
        cacheInsert 150 st k = ⟨st.keys.drop 75 ++ [k], 76⟩) ∧
      (∀ (st : CacheState) (k : String), st.size = st.keys.length →
        st.keys.length = 100 → k ∉ st.keys →
        cacheInsert 100 st k = ⟨st.keys.drop 50 ++ [k], 51⟩) := by
  refine ⟨fun ops => cacheRun_inv 200 (by omega) ops,
    fun ops => cacheRun_inv 150 (by omega) ops,
    fun ops => cacheRun_inv 100 (by omega) ops, ?_, ?_, ?_⟩ <;>
  · intro st k h1 h2 hmem
    unfold cacheInsert
    rw [if_neg hmem, if_pos (by omega)]
    rw [h2]

/-- C9 witness: a concrete full cache evicting its oldest half. -/
theorem claim9_witness :
    cacheInsert 200 ⟨List.replicate 200 "a", 200⟩ "b"
      = ⟨(List.replicate 200 "a").drop 100 ++ ["b"], 101⟩ := by
  have h := claim9_bounded_caches.2.2.2.1 ⟨List.replicate 200 "a", 200⟩ "b"
    (by simp) (by simp) (by simp)
  exact h

/-! ## The formatter (`src/format.js`): fast numeric paths, the token
scanner, and the precompiled pattern table -/

/-- `pad2`: two-digit zero padding (single-digit numbers get a leading
zero; anything else renders as-is, like the PAD2 table / `padStart`
fallback). -/
def pad2 (n : Int) : String :=
  if 0 ≤ n ∧ n < 10 then "0" ++ toString n else toString n

/-- `pad3`: three-digit zero padding for milliseconds. -/
def pad3 (n : Int) : String :=
  if 0 ≤ n ∧ n < 10 then "00" ++ toString n
  else if 0 ≤ n ∧ n < 100 then "0" ++ toString n
  else toString n

/-- `padStart(2, '0')` on an already rendered string. -/
def padStart2 (s : String) : String :=
  if s.length < 2 then "0" ++ s else s

/-- `String(...).slice(-2)`. -/
def lastTwo (s : String) : String := s.drop (s.length - 2)

/-- `to12Hour`. -/
def to12Hour (h : Int) : Int :=
  let hour := h.tmod 12
  if hour = 0 then 12 else hour

/-- `getTimezoneOffset()`: zero, the host zone being UTC in this model. -/
def getTimezoneOffset (_t : Int) : Int := 0

/-- `ord(n)`: English ordinal suffix via the `s[(v-20)%10] || s[v] || s[0]`
index dance (JS `%` truncates, undefined indices fall through). -/
def ordSfx : Int → String
  | 1 => "st"
  | 2 => "nd"
  | 3 => "rd"
  | _ => "th"

def ord (n : Int) : String :=
  let v := n.tmod 100
  let i := (v - 20).tmod 10
  if 0 ≤ i ∧ i ≤ 3 then toString n ++ ordSfx i
  else if 0 ≤ v ∧ v ≤ 3 then toString n ++ ordSfx v
  else toString n ++ "th"

/-- `getOffset(date, withColon)`: rendered local offset (`Z`/`ZZ`). -/
def getOffset (t : Int) (withColon : Bool) : String :=
  let offset := -(getTimezoneOffset t)
  let sign := if 0 ≤ offset then "+" else "-"
  let absOffset := if offset < 0 then -offset else offset
  sign ++ padStart2 (toString (absOffset / 60))
    ++ (if withColon then ":" else "") ++ padStart2 (toString (absOffset % 60))

/-- `ToInt32`, as applied by `| 0`. -/
def toInt32 (n : Int) : Int := (n + 2147483648) % 4294967296 - 2147483648

/-- `Date.prototype.toISOString` (UTC fields; years outside 0..9999 use
the six-digit expanded form). -/
def padZeros (k : Nat) (s : String) : String :=
  if s.length < k then String.mk (List.replicate (k - s.length) '0') ++ s else s

def jsToISOString (t : Int) : String :=
  let y := getFullYear t
  (if 0 ≤ y ∧ y ≤ 9999 then padZeros 4 (toString y)
   else if y < 0 then "-" ++ padZeros 6 (toString (-y))
   else "+" ++ padZeros 6 (toString y))
  ++ "-" ++ pad2 ((getMonth t : Int) + 1) ++ "-" ++ pad2 (getDate t)
  ++ "T" ++ pad2 (getHours t) ++ ":" ++ pad2 (getMinutes t)
  ++ ":" ++ pad2 (getSeconds t) ++ "." ++ pad3 (getMilliseconds t) ++ "Z"

/-- One entry of a compiled pattern: literal text or a format token. -/
inductive Tok where
  | lit (s : String)
  | tok (s : String)
  deriving DecidableEq, Repr

/-- The token alternatives of `TOKEN_REGEX`, in their alternation order
(longest first within each family). -/
def TOKENS : List String :=
  ["YYYY", "YY", "MMMM", "MMM", "MM", "M", "Do", "DD", "D", "dddd", "ddd",
   "dd", "HH", "H", "hh", "h", "mm", "m", "ss", "s", "SSS", "A", "a", "ZZ", "Z"]

/-- One attempt of `TOKEN_REGEX` at the current position: a bracketed
literal run, else the first token alternative that is a prefix here. -/
def matchTokenAt (cs : List Char) : Option (Tok × List Char) :=
  match cs with
  | '[' :: rest =>
    let inner := rest.takeWhile (fun c => c ≠ ']')
    if 0 < inner.length ∧ inner.length < rest.length then
      some (.lit (String.mk inner), rest.drop (inner.length + 1))
    else none
  | _ =>
    match TOKENS.find? (fun p => p.data.isPrefixOf cs) with
    | some p => some (.tok p, cs.drop p.length)
    | none => none

/-- The scan loop of `parseFormatTokens`: unmatched characters accumulate
into pending literal text, matches flush it. -/
def tokenizeAux : Nat → List Char → List Char → List Tok → List Tok
  | _, [], pend, acc =>
    acc ++ (if pend.isEmpty then [] else [.lit (String.mk pend)])
  | 0, cs, pend, acc =>
    acc ++ (if (pend ++ cs).isEmpty then [] else [.lit (String.mk (pend ++ cs))])
  | fuel + 1, c :: cs, pend, acc =>
    match matchTokenAt (c :: cs) with
    | some (t, rest) =>
      tokenizeAux fuel rest []
        (acc ++ (if pend.isEmpty then [] else [.lit (String.mk pend)]) ++ [t])
    | none => tokenizeAux fuel cs (pend ++ [c]) acc

/-- `parseFormatTokens(fmt)` (the caching wrapper is modelled in the cache
section; compilation itself is this pure function). -/
def parseFormatTokens (fmt : String) : List Tok :=
  tokenizeAux fmt.length fmt.data [] []

/-- `formatToken(token, date, locale)`: locale-independent tokens are
computed from the date fields; `A`/`a` have an English fast path; the
remaining locale-dependent tokens consult the external locale-rendering
service, abstracted as `intl locale token date`; anything else passes
through unchanged (the `T` table has no entry for it). -/
def formatToken (intl : String → String → Int → String) (token : String)
    (t : Int) (locale : String) : String :=
  if token = "YYYY" then toString (getFullYear t)
  else if token = "YY" then lastTwo (toString (getFullYear t))
  else if token = "MM" then pad2 ((getMonth t : Int) + 1)
  else if token = "M" then toString ((getMonth t : Int) + 1)
  else if token = "DD" then pad2 (getDate t)
  else if token = "D" then toString (getDate t)
  else if token = "Do" then ord (getDate t)
  else if token = "HH" then pad2 (getHours t)
  else if token = "H" then toString (getHours t)
  else if token = "hh" then pad2 (to12Hour (getHours t))
  else if token = "h" then toString (to12Hour (getHours t))
  else if token = "mm" then pad2 (getMinutes t)
  else if token = "m" then toString (getMinutes t)
  else if token = "ss" then pad2 (getSeconds t)
  else if token = "s" then toString (getSeconds t)
  else if token = "SSS" then pad3 (getMilliseconds t)
  else if token = "A" then
    if locale = "" ∨ locale.startsWith "en" then
      (if getHours t < 12 then "AM" else "PM")
    else intl locale "A" t
  else if token = "a" then
    if locale = "" ∨ locale.startsWith "en" then
      (if getHours t < 12 then "am" else "pm")
    else intl locale "a" t
  else if token = "Z" then getOffset t true
  else if token = "ZZ" then getOffset t false
  else if token = "dddd" ∨ token = "ddd" ∨ token = "dd" ∨ token = "MMMM"
      ∨ token = "MMM" then intl locale token t
  else token

/-- Rendering one compiled entry. -/
def renderTok (intl : String → String → Int → String) (t : Int)
    (locale : String) : Tok → String
  | .lit s => s
  | .tok k => formatToken intl k t locale

/-- The generic tokenizer-based rendering path of `format`: compile the
pattern, render each entry, join the parts. -/
def genericFormat (intl : String → String → Int → String) (fmt : String)
    (t : Int) (locale : String) : String :=
  String.join ((parseFormatTokens fmt).map (renderTok intl t locale))

/-- The `PRECOMPILED` fast-path table, entry for entry. -/
def PRECOMPILED (fmt : String) : Option (Int → String) :=
  if fmt = "YYYY-MM-DD" then some fun d =>
    toString (getFullYear d) ++ "-" ++ pad2 ((getMonth d : Int) + 1)
      ++ "-" ++ pad2 (getDate d)
  else if fmt = "YYYY/MM/DD" then some fun d =>
    toString (getFullYear d) ++ "/" ++ pad2 ((getMonth d : Int) + 1)
      ++ "/" ++ pad2 (getDate d)
  else if fmt = "DD/MM/YYYY" then some fun d =>
    pad2 (getDate d) ++ "/" ++ pad2 ((getMonth d : Int) + 1)
      ++ "/" ++ toString (getFullYear d)
  else if fmt = "MM/DD/YYYY" then some fun d =>
    pad2 ((getMonth d : Int) + 1) ++ "/" ++ pad2 (getDate d)
      ++ "/" ++ toString (getFullYear d)
  else if fmt = "DD-MM-YYYY" then some fun d =>
    pad2 (getDate d) ++ "-" ++ pad2 ((getMonth d : Int) + 1)
      ++ "-" ++ toString (getFullYear d)
  else if fmt = "DD.MM.YYYY" then some fun d =>
    pad2 (getDate d) ++ "." ++ pad2 ((getMonth d : Int) + 1)
      ++ "." ++ toString (getFullYear d)
  else if fmt = "HH:mm" then some fun d =>
    pad2 (getHours d) ++ ":" ++ pad2 (getMinutes d)
  else if fmt = "HH:mm:ss" then some fun d =>
    pad2 (getHours d) ++ ":" ++ pad2 (getMinutes d) ++ ":" ++ pad2 (getSeconds d)
  else if fmt = "HH:mm:ss.SSS" then some fun d =>
    pad2 (getHours d) ++ ":" ++ pad2 (getMinutes d) ++ ":" ++ pad2 (getSeconds d)
      ++ "." ++ pad3 (getMilliseconds d)
  else if fmt = "hh:mm A" then some fun d =>
    pad2 (if (getHours d).tmod 12 = 0 then 12 else (getHours d).tmod 12)
      ++ ":" ++ pad2 (getMinutes d) ++ " "
      ++ (if getHours d < 12 then "AM" else "PM")
  else if fmt = "h:mm A" then some fun d =>
    toString (if (getHours d).tmod 12 = 0 then 12 else (getHours d).tmod 12)
      ++ ":" ++ pad2 (getMinutes d) ++ " "
      ++ (if getHours d < 12 then "AM" else "PM")
  else if fmt = "hh:mm:ss A" then some fun d =>
    pad2 (if (getHours d).tmod 12 = 0 then 12 else (getHours d).tmod 12)
      ++ ":" ++ pad2 (getMinutes d) ++ ":" ++ pad2 (getSeconds d) ++ " "
      ++ (if getHours d < 12 then "AM" else "PM")
  else if fmt = "YYYY-MM-DDTHH:mm:ss" then some fun d =>
    toString (getFullYear d) ++ "-" ++ pad2 ((getMonth d : Int) + 1)
      ++ "-" ++ pad2 (getDate d) ++ "T" ++ pad2 (getHours d)
      ++ ":" ++ pad2 (getMinutes d) ++ ":" ++ pad2 (getSeconds d)
  else if fmt = "YYYY-MM-DD HH:mm" then some fun d =>
    toString (getFullYear d) ++ "-" ++ pad2 ((getMonth d : Int) + 1)
      ++ "-" ++ pad2 (getDate d) ++ " " ++ pad2 (getHours d)
      ++ ":" ++ pad2 (getMinutes d)
  else if fmt = "YYYY-MM-DD HH:mm:ss" then some fun d =>
    toString (getFullYear d) ++ "-" ++ pad2 ((getMonth d : Int) + 1)
      ++ "-" ++ pad2 (getDate d) ++ " " ++ pad2 (getHours d)
      ++ ":" ++ pad2 (getMinutes d) ++ ":" ++ pad2 (getSeconds d)
  else if fmt = "DD/MM/YYYY HH:mm" then some fun d =>
    pad2 (getDate d) ++ "/" ++ pad2 ((getMonth d : Int) + 1)
      ++ "/" ++ toString (getFullYear d) ++ " " ++ pad2 (getHours d)
      ++ ":" ++ pad2 (getMinutes d)
  else if fmt = "MM/DD/YYYY HH:mm" then some fun d =>
    pad2 ((getMonth d : Int) + 1) ++ "/" ++ pad2 (getDate d)
      ++ "/" ++ toString (getFullYear d) ++ " " ++ pad2 (getHours d)
      ++ ":" ++ pad2 (getMinutes d)
  else if fmt = "YYYY-MM-DDTHH:mm:ssZ" then some fun d =>
    let offset := -(getTimezoneOffset d)
    let sign := if 0 ≤ offset then "+" else "-"
    let absOffset := if offset < 0 then -offset else offset
    toString (getFullYear d) ++ "-" ++ pad2 ((getMonth d : Int) + 1)
      ++ "-" ++ pad2 (getDate d) ++ "T" ++ pad2 (getHours d)
      ++ ":" ++ pad2 (getMinutes d) ++ ":" ++ pad2 (getSeconds d)
      ++ sign ++ pad2 (absOffset.tdiv 60) ++ ":" ++ pad2 (absOffset.tmod 60)
  else if fmt = "YYYY-MM-DDTHH:mm:ss.SSSZ" then some fun d =>
    let offset := -(getTimezoneOffset d)
    let sign := if 0 ≤ offset then "+" else "-"
    let absOffset := if offset < 0 then -offset else offset
    toString (getFullYear d) ++ "-" ++ pad2 ((getMonth d : Int) + 1)
      ++ "-" ++ pad2 (getDate d) ++ "T" ++ pad2 (getHours d)
      ++ ":" ++ pad2 (getMinutes d) ++ ":" ++ pad2 (getSeconds d)
      ++ "." ++ pad3 (getMilliseconds d)
      ++ sign ++ pad2 (absOffset.tdiv 60) ++ ":" ++ pad2 (absOffset.tmod 60)
  else if fmt = "ISO" then some fun d => jsToISOString d
  else if fmt = "X" then some fun d => toString (toInt32 (d.tdiv 1000))
  else if fmt = "x" then some fun d => toString d
  else none

/-- The patterns of the fast-path table whose rendering the generic
tokenizer path reproduces (all entries except the three special forms
`ISO`, `X`, `x`, which are literal text to the tokenizer). -/
def corePatterns : List String :=
  ["YYYY-MM-DD", "YYYY/MM/DD", "DD/MM/YYYY", "MM/DD/YYYY", "DD-MM-YYYY",
   "DD.MM.YYYY", "HH:mm", "HH:mm:ss", "HH:mm:ss.SSS", "hh:mm A", "h:mm A",
   "hh:mm:ss A", "YYYY-MM-DDTHH:mm:ss", "YYYY-MM-DD HH:mm",
   "YYYY-MM-DD HH:mm:ss", "DD/MM/YYYY HH:mm", "MM/DD/YYYY HH:mm",
   "YYYY-MM-DDTHH:mm:ssZ", "YYYY-MM-DDTHH:mm:ss.SSSZ"]

theorem str_empty_append (s : String) : "" ++ s = s := rfl

theorem formatToken_YYYY (intl : String → String → Int → String) (t : Int)
    (locale : String) : formatToken intl "YYYY" t locale = toString (getFullYear t) := rfl

theorem formatToken_MM (intl : String → String → Int → String) (t : Int)
    (locale : String) : formatToken intl "MM" t locale = pad2 ((getMonth t : Int) + 1) := rfl

theorem formatToken_DD (intl : String → String → Int → String) (t : Int)
    (locale : String) : formatToken intl "DD" t locale = pad2 (getDate t) := rfl

theorem formatToken_HH (intl : String → String → Int → String) (t : Int)
    (locale : String) : formatToken intl "HH" t locale = pad2 (getHours t) := rfl

theorem formatToken_hh (intl : String → String → Int → String) (t : Int)
    (locale : String) :
    formatToken intl "hh" t locale = pad2 (to12Hour (getHours t)) := rfl

theorem formatToken_h (intl : String → String → Int → String) (t : Int)
    (locale : String) :
    formatToken intl "h" t locale = toString (to12Hour (getHours t)) := rfl

theorem formatToken_mm (intl : String → String → Int → String) (t : Int)
    (locale : String) : formatToken intl "mm" t locale = pad2 (getMinutes t) := rfl

theorem formatToken_ss (intl : String → String → Int → String) (t : Int)
    (locale : String) : formatToken intl "ss" t locale = pad2 (getSeconds t) := rfl

theorem formatToken_SSS (intl : String → String → Int → String) (t : Int)
    (locale : String) :
    formatToken intl "SSS" t locale = pad3 (getMilliseconds t) := rfl

theorem formatToken_Z (intl : String → String → Int → String) (t : Int)
    (locale : String) : formatToken intl "Z" t locale = "+00:00" := rfl

theorem formatToken_A (intl : String → String → Int → String) (t : Int)
    (locale : String) (h : locale = "" ∨ locale.startsWith "en") :
    formatToken intl "A" t locale = (if getHours t < 12 then "AM" else "PM") := by
  show (if locale = "" ∨ locale.startsWith "en"
      then (if getHours t < 12 then "AM" else "PM")
      else intl locale "A" t) = (if getHours t < 12 then "AM" else "PM")
  rw [if_pos h]

/-- **C5** (amended): for every pattern of the fast-path table except the
three special literal forms `ISO`, `X` and `x`, and with an absent or
English locale whenever the pattern contains the meridiem token `A`, the
precompiled renderer exists in the table and its output is byte-identical
to what the generic tokenizer-based rendering path produces for the same
pattern and instant. -/
theorem claim5_format_fastpath_equivalence
    (intl : String → String → Int → String) (fmt : String) (t : Int)
    (locale : String) (hfmt : fmt ∈ corePatterns)
    (hA : (fmt = "hh:mm A" ∨ fmt = "h:mm A" ∨ fmt = "hh:mm:ss A") →
      locale = "" ∨ locale.startsWith "en") :
    ∃ f, PRECOMPILED fmt = some f ∧ f t = genericFormat intl fmt t locale := by
  simp only [corePatterns, List.mem_cons, List.not_mem_nil, or_false] at hfmt
  rcases hfmt with rfl|rfl|rfl|rfl|rfl|rfl|rfl|rfl|rfl|rfl|rfl|rfl|rfl|rfl|rfl|rfl|rfl|rfl|rfl
  · have htok : parseFormatTokens "YYYY-MM-DD" =
        [Tok.tok "YYYY", Tok.lit "-", Tok.tok "MM", Tok.lit "-", Tok.tok "DD"] := by
      decide
    refine ⟨_, rfl, ?_⟩
    simp only [genericFormat, htok, List.map_cons, List.map_nil, renderTok, formatToken_YYYY, formatToken_MM, formatToken_DD, String.join, List.foldl_cons, List.foldl_nil]
    rw [str_empty_append]
  · have htok : parseFormatTokens "YYYY/MM/DD" =
        [Tok.tok "YYYY", Tok.lit "/", Tok.tok "MM", Tok.lit "/", Tok.tok "DD"] := by
      decide
    refine ⟨_, rfl, ?_⟩
    simp only [genericFormat, htok, List.map_cons, List.map_nil, renderTok, formatToken_YYYY, formatToken_MM, formatToken_DD, String.join, List.foldl_cons, List.foldl_nil]
    rw [str_empty_append]
  · have htok : parseFormatTokens "DD/MM/YYYY" =
        [Tok.tok "DD", Tok.lit "/", Tok.tok "MM", Tok.lit "/", Tok.tok "YYYY"] := by
      decide
    refine ⟨_, rfl, ?_⟩
    simp only [genericFormat, htok, List.map_cons, List.map_nil, renderTok, formatToken_DD, formatToken_MM, formatToken_YYYY, String.join, List.foldl_cons, List.foldl_nil]
    rw [str_empty_append]
  · have htok : parseFormatTokens "MM/DD/YYYY" =
        [Tok.tok "MM", Tok.lit "/", Tok.tok "DD", Tok.lit "/", Tok.tok "YYYY"] := by
      decide
    refine ⟨_, rfl, ?_⟩
    simp only [genericFormat, htok, List.map_cons, List.map_nil, renderTok, formatToken_MM, formatToken_DD, formatToken_YYYY, String.join, List.foldl_cons, List.foldl_nil]
    rw [str_empty_append]
  · have htok : parseFormatTokens "DD-MM-YYYY" =
        [Tok.tok "DD", Tok.lit "-", Tok.tok "MM", Tok.lit "-", Tok.tok "YYYY"] := by
      decide
    refine ⟨_, rfl, ?_⟩
    simp only [genericFormat, htok, List.map_cons, List.map_nil, renderTok, formatToken_DD, formatToken_MM, formatToken_YYYY, String.join, List.foldl_cons, List.foldl_nil]
    rw [str_empty_append]
  · have htok : parseFormatTokens "DD.MM.YYYY" =
        [Tok.tok "DD", Tok.lit ".", Tok.tok "MM", Tok.lit ".", Tok.tok "YYYY"] := by
      decide
    refine ⟨_, rfl, ?_⟩
    simp only [genericFormat, htok, List.map_cons, List.map_nil, renderTok, formatToken_DD, formatToken_MM, formatToken_YYYY, String.join, List.foldl_cons, List.foldl_nil]
    rw [str_empty_append]
  · have htok : parseFormatTokens "HH:mm" =
        [Tok.tok "HH", Tok.lit ":", Tok.tok "mm"] := by
      decide
    refine ⟨_, rfl, ?_⟩
    simp only [genericFormat, htok, List.map_cons, List.map_nil, renderTok, formatToken_HH, formatToken_mm, String.join, List.foldl_cons, List.foldl_nil]
    rw [str_empty_append]
  · have htok : parseFormatTokens "HH:mm:ss" =
        [Tok.tok "HH", Tok.lit ":", Tok.tok "mm", Tok.lit ":", Tok.tok "ss"] := by
      decide
    refine ⟨_, rfl, ?_⟩
    simp only [genericFormat, htok, List.map_cons, List.map_nil, renderTok, formatToken_HH, formatToken_mm, formatToken_ss, String.join, List.foldl_cons, List.foldl_nil]
    rw [str_empty_append]
  · have htok : parseFormatTokens "HH:mm:ss.SSS" =
        [Tok.tok "HH", Tok.lit ":", Tok.tok "mm", Tok.lit ":", Tok.tok "ss", Tok.lit ".", Tok.tok "SSS"] := by
      decide
    refine ⟨_, rfl, ?_⟩
    simp only [genericFormat, htok, List.map_cons, List.map_nil, renderTok, formatToken_HH, formatToken_mm, formatToken_ss, formatToken_SSS, String.join, List.foldl_cons, List.foldl_nil]
    rw [str_empty_append]
  · have htok : parseFormatTokens "hh:mm A" =
        [Tok.tok "hh", Tok.lit ":", Tok.tok "mm", Tok.lit " ", Tok.tok "A"] := by
      decide
    refine ⟨_, rfl, ?_⟩
    simp only [genericFormat, htok, List.map_cons, List.map_nil, renderTok, formatToken_hh, formatToken_mm, formatToken_A intl t locale (hA (Or.inl rfl)), to12Hour, String.join, List.foldl_cons, List.foldl_nil]
    rw [str_empty_append]
  · have htok : parseFormatTokens "h:mm A" =
        [Tok.tok "h", Tok.lit ":", Tok.tok "mm", Tok.lit " ", Tok.tok "A"] := by
      decide
    refine ⟨_, rfl, ?_⟩
    simp only [genericFormat, htok, List.map_cons, List.map_nil, renderTok, formatToken_h, formatToken_mm, formatToken_A intl t locale (hA (Or.inr (Or.inl rfl))), to12Hour, String.join, List.foldl_cons, List.foldl_nil]
    rw [str_empty_append]
  · have htok : parseFormatTokens "hh:mm:ss A" =
        [Tok.tok "hh", Tok.lit ":", Tok.tok "mm", Tok.lit ":", Tok.tok "ss", Tok.lit " ", Tok.tok "A"] := by
      decide
    refine ⟨_, rfl, ?_⟩
    simp only [genericFormat, htok, List.map_cons, List.map_nil, renderTok, formatToken_hh, formatToken_mm, formatToken_ss, formatToken_A intl t locale (hA (Or.inr (Or.inr rfl))), to12Hour, String.join, List.foldl_cons, List.foldl_nil]
    rw [str_empty_append]
  · have htok : parseFormatTokens "YYYY-MM-DDTHH:mm:ss" =
        [Tok.tok "YYYY", Tok.lit "-", Tok.tok "MM", Tok.lit "-", Tok.tok "DD", Tok.lit "T", Tok.tok "HH", Tok.lit ":", Tok.tok "mm", Tok.lit ":", Tok.tok "ss"] := by
      decide
    refine ⟨_, rfl, ?_⟩
    simp only [genericFormat, htok, List.map_cons, List.map_nil, renderTok, formatToken_YYYY, formatToken_MM, formatToken_DD, formatToken_HH, formatToken_mm, formatToken_ss, String.join, List.foldl_cons, List.foldl_nil]
    rw [str_empty_append]
  · have htok : parseFormatTokens "YYYY-MM-DD HH:mm" =
        [Tok.tok "YYYY", Tok.lit "-", Tok.tok "MM", Tok.lit "-", Tok.tok "DD", Tok.lit " ", Tok.tok "HH", Tok.lit ":", Tok.tok "mm"] := by
      decide
    refine ⟨_, rfl, ?_⟩
    simp only [genericFormat, htok, List.map_cons, List.map_nil, renderTok, formatToken_YYYY, formatToken_MM, formatToken_DD, formatToken_HH, formatToken_mm, String.join, List.foldl_cons, List.foldl_nil]
    rw [str_empty_append]
  · have htok : parseFormatTokens "YYYY-MM-DD HH:mm:ss" =
        [Tok.tok "YYYY", Tok.lit "-", Tok.tok "MM", Tok.lit "-", Tok.tok "DD", Tok.lit " ", Tok.tok "HH", Tok.lit ":", Tok.tok "mm", Tok.lit ":", Tok.tok "ss"] := by
      decide
    refine ⟨_, rfl, ?_⟩
    simp only [genericFormat, htok, List.map_cons, List.map_nil, renderTok, formatToken_YYYY, formatToken_MM, formatToken_DD, formatToken_HH, formatToken_mm, formatToken_ss, String.join, List.foldl_cons, List.foldl_nil]
    rw [str_empty_append]
  · have htok : parseFormatTokens "DD/MM/YYYY HH:mm" =
        [Tok.tok "DD", Tok.lit "/", Tok.tok "MM", Tok.lit "/", Tok.tok "YYYY", Tok.lit " ", Tok.tok "HH", Tok.lit ":", Tok.tok "mm"] := by
      decide
    refine ⟨_, rfl, ?_⟩
    simp only [genericFormat, htok, List.map_cons, List.map_nil, renderTok, formatToken_DD, formatToken_MM, formatToken_YYYY, formatToken_HH, formatToken_mm, String.join, List.foldl_cons, List.foldl_nil]
    rw [str_empty_append]
  · have htok : parseFormatTokens "MM/DD/YYYY HH:mm" =
        [Tok.tok "MM", Tok.lit "/", Tok.tok "DD", Tok.lit "/", Tok.tok "YYYY", Tok.lit " ", Tok.tok "HH", Tok.lit ":", Tok.tok "mm"] := by
      decide
    refine ⟨_, rfl, ?_⟩
    simp only [genericFormat, htok, List.map_cons, List.map_nil, renderTok, formatToken_MM, formatToken_DD, formatToken_YYYY, formatToken_HH, formatToken_mm, String.join, List.foldl_cons, List.foldl_nil]
    rw [str_empty_append]
  · have htok : parseFormatTokens "YYYY-MM-DDTHH:mm:ssZ" =
        [Tok.tok "YYYY", Tok.lit "-", Tok.tok "MM", Tok.lit "-", Tok.tok "DD", Tok.lit "T", Tok.tok "HH", Tok.lit ":", Tok.tok "mm", Tok.lit ":", Tok.tok "ss", Tok.tok "Z"] := by
      decide
    refine ⟨_, rfl, ?_⟩
    simp only [genericFormat, htok, List.map_cons, List.map_nil, renderTok, formatToken_YYYY, formatToken_MM, formatToken_DD, formatToken_HH, formatToken_mm, formatToken_ss, formatToken_Z, String.join, List.foldl_cons, List.foldl_nil]
    rw [str_empty_append]
    simp only [String.append_assoc]
    rfl
  · have htok : parseFormatTokens "YYYY-MM-DDTHH:mm:ss.SSSZ" =
        [Tok.tok "YYYY", Tok.lit "-", Tok.tok "MM", Tok.lit "-", Tok.tok "DD", Tok.lit "T", Tok.tok "HH", Tok.lit ":", Tok.tok "mm", Tok.lit ":", Tok.tok "ss", Tok.lit ".", Tok.tok "SSS", Tok.tok "Z"] := by
      decide
    refine ⟨_, rfl, ?_⟩
    simp only [genericFormat, htok, List.map_cons, List.map_nil, renderTok, formatToken_YYYY, formatToken_MM, formatToken_DD, formatToken_HH, formatToken_mm, formatToken_ss, formatToken_SSS, formatToken_Z, String.join, List.foldl_cons, List.foldl_nil]
    rw [str_empty_append]
    simp only [String.append_assoc]
    rfl

theorem claim5_witness :
    ∃ f, PRECOMPILED "hh:mm A" = some f ∧
      f 1769040000000 =
        genericFormat (fun _ _ _ => "") "hh:mm A" 1769040000000 "" :=
  claim5_format_fastpath_equivalence (fun _ _ _ => "") "hh:mm A" 1769040000000 ""
    (by decide) (fun _ => Or.inl rfl)

/-- For C5: the table's `x` entry renders the numeric timestamp, while the
tokenizer treats the pattern text `x` (which matches no token) as a
literal, so the two paths disagree on the pattern `x` at instant 0. -/
theorem claim5_counterexample :
    (PRECOMPILED "x").map (fun f => f 0) = some "0" ∧
    genericFormat (fun _ _ _ => "") "x" 0 "" = "x" ∧
    (PRECOMPILED "x").map (fun f => f 0) ≠
      some (genericFormat (fun _ _ _ => "") "x" 0 "") := by
  decide

end NanoDate
